import Mathlib

/-!
# Verification of the zaiGoFramework inventory core

A shallow embedding of the inventory-management core of the
`nemonet1337/zaiGoFramework` repository (Go), together with proofs about it.

Modelling conventions:
* `time.Time` values are modelled as abstract `Nat` ticks supplied by the
  caller (`now`); the ambient-context actor is an explicit `user : String`
  parameter.
* Go `float64` money amounts are modelled over `ℚ`; the concrete instances
  considered stay in ranges where binary64 arithmetic is exact.
* UUID generation (`NewTransactionID`, `NewBatchID`) is modelled by a fresh-id
  counter `nextID` threaded through the world state.
* The storage boundary (`Storage` interface, PostgreSQL implementation in
  `pkg/inventory/storage/postgres.go`) is modelled by an in-memory world:
  the `stocks` table is a list keyed by (item_id, location_id), `UpdateStock`
  performs the same conditional UPDATE (compare-and-swap on `version`,
  `ErrVersionMismatch` when zero rows are affected), and the `transactions`
  table is an append-only list.
* Failures of the *secondary* writes (journal `CreateTransaction`, alert
  creation, event publish) are injected through an explicit `Faults` record,
  mirroring the code paths in `Manager.Add` / `Remove` / `Adjust` that log and
  swallow those errors.
* Struct fields that no claim observes (`Item.description`, `Item.category`,
  `Transaction.lotNumber`, `Transaction.expiryDate`, `Transaction.metadata`,
  catalog timestamps) are omitted from the embedding.
-/

namespace ZaiGo

instance {ε α : Type} [DecidableEq ε] [DecidableEq α] : DecidableEq (Except ε α) := fun x y =>
  match x, y with
  | .ok a, .ok b =>
    if h : a = b then .isTrue (by rw [h]) else .isFalse (by simp [h])
  | .error a, .error b =>
    if h : a = b then .isTrue (by rw [h]) else .isFalse (by simp [h])
  | .ok _, .error _ => .isFalse (by simp)
  | .error _, .ok _ => .isFalse (by simp)

/-- Catalog item (`pkg/inventory/types.go`, `Item`). -/
structure Item where
  id : String
  name : String
  sku : String
  unitCost : ℚ
deriving DecidableEq, Repr

/-- Storage location (`pkg/inventory/types.go`, `Location`). -/
structure Location where
  id : String
  name : String
  isActive : Bool
deriving DecidableEq, Repr

/-- Per-(item, location) stock record (`pkg/inventory/types.go`, `Stock`). -/
structure Stock where
  itemID : String
  locationID : String
  quantity : Int
  reserved : Int
  available : Int
  version : Nat
  updatedAt : Nat
  updatedBy : String
deriving DecidableEq, Repr

/-- `Stock.CalculateAvailable`: available := quantity - reserved. -/
def Stock.calculateAvailable (s : Stock) : Stock :=
  { s with available := s.quantity - s.reserved }

/-- `TransactionType` constants in `types.go`. -/
inductive TransactionType where
  | inbound
  | outbound
  | transfer
  | adjust
deriving DecidableEq, Repr

/-- Inventory movement record (`types.go`, `Transaction`). -/
structure Transaction where
  id : String
  type : TransactionType
  itemID : String
  fromLocation : Option String
  toLocation : Option String
  quantity : Int
  unitCost : Option ℚ
  reference : String
  createdAt : Nat
  createdBy : String
deriving DecidableEq, Repr

/-- `AlertType` constants in `types.go`. -/
inductive AlertType where
  | lowStock
  | overStock
  | expiring
  | expired
  | discrepancy
deriving DecidableEq, Repr

/-- Stock alert (`types.go`, `StockAlert`). -/
structure StockAlert where
  id : String
  type : AlertType
  itemID : String
  locationID : String
  currentQty : Int
  threshold : Int
  message : String
  isActive : Bool
  createdAt : Nat
  resolvedAt : Option Nat
deriving DecidableEq, Repr

/-- Manager configuration (`Config` in the manager source). -/
structure Config where
  allowNegativeStock : Bool
  lowStockThreshold : Int
deriving DecidableEq, Repr

/-- Error taxonomy (`pkg/inventory/errors.go`).  `genericError` stands for the
ad-hoc `fmt.Errorf` errors; `storageError` carries the wrapped cause (every
wrap site modelled here passes a non-nil cause). -/
inductive InvError where
  | itemNotFound
  | locationNotFound
  | stockNotFound
  | insufficientStock
  | insufficientReservation
  | versionMismatch
  | validationError (field message value : String)
  | businessRuleError (rule message context : String)
  | storageError (operation message : String) (cause : InvError)
  | genericError (message : String)
deriving DecidableEq, Repr

/-- Injected failures of the secondary writes (journal write, alert creation,
event publish), which `Manager.Add`/`Remove`/`Adjust` log and swallow. -/
structure Faults where
  txFail : Bool
  alertFail : Bool
  publishFail : Bool
deriving DecidableEq, Repr

/-- No injected secondary-write failures. -/
def noFaults : Faults := ⟨false, false, false⟩

/-- The persistent state visible to the core: catalog, stocks table,
append-only transactions table, alerts table, and a fresh-id source. -/
structure World where
  items : List Item
  locations : List Location
  stocks : List Stock
  journal : List Transaction
  alerts : List StockAlert
  nextID : Nat
  config : Config
deriving DecidableEq, Repr

/-- Key predicate of the `stocks` table primary key (item_id, location_id). -/
def stockKey (itemID locationID : String) (s : Stock) : Bool :=
  s.itemID == itemID && s.locationID == locationID

/-- `Storage.GetStock`: row lookup by primary key. -/
def getStock (w : World) (itemID locationID : String) : Option Stock :=
  w.stocks.find? (stockKey itemID locationID)

/-- `Storage.GetItem`: catalog lookup. -/
def getItem (w : World) (itemID : String) : Option Item :=
  w.items.find? (fun i => i.id == itemID)

/-- `Storage.GetLocation`: catalog lookup. -/
def getLocation (w : World) (locationID : String) : Option Location :=
  w.locations.find? (fun l => l.id == locationID)

/-- Rows matched by the conditional UPDATE in
`PostgreSQLStorage.UpdateStock`: same primary key and
`version = stock.Version - 1` (the version read before the mutation). -/
def casMatch (s : Stock) (r : Stock) : Bool :=
  r.itemID == s.itemID && r.locationID == s.locationID && r.version == s.version - 1

/-- `PostgreSQLStorage.UpdateStock`: compare-and-swap on `version`; when zero
rows are affected the distinguishable `ErrVersionMismatch` is returned.  The
SQL UPDATE is a single atomic statement, so concurrent writers serialize into
some order of these atomic steps. -/
def updateStockDB (stocks : List Stock) (s : Stock) : Except InvError (List Stock) :=
  if stocks.any (casMatch s) then
    .ok (stocks.map (fun r => if casMatch s r then s else r))
  else
    .error .versionMismatch

/-- `PostgreSQLStorage.ResolveAlert`: `UPDATE stock_alerts SET is_active =
false, resolved_at = now WHERE id = $1` — note: no `is_active` condition in
the WHERE clause; an error is returned only when zero rows match. -/
def resolveAlertDB (alerts : List StockAlert) (alertID : String) (now : Nat) :
    Except InvError (List StockAlert) :=
  if alerts.any (fun a => a.id == alertID) then
    .ok (alerts.map (fun a =>
      if a.id == alertID then { a with isActive := false, resolvedAt := some now } else a))
  else
    .error (.genericError "alert not found")

/-- `Manager.validateItemAndLocation`: item then location existence check. -/
def validateItemAndLocation (w : World) (itemID locationID : String) :
    Except InvError Unit :=
  if (getItem w itemID).isNone then .error .itemNotFound
  else if (getLocation w locationID).isNone then .error .locationNotFound
  else .ok ()

/-- Build a journal entry as the manager does (unit cost is never set by the
ledger operations themselves). -/
def mkTx (id : String) (ty : TransactionType) (itemID : String)
    (fromL toL : Option String) (qty : Int) (ref : String) (now : Nat)
    (user : String) : Transaction :=
  { id := id, type := ty, itemID := itemID, fromLocation := fromL,
    toLocation := toL, quantity := qty, unitCost := none, reference := ref,
    createdAt := now, createdBy := user }

/-- The secondary `CreateTransaction` call at the end of `Add` / `Remove` /
`Transfer` / `Adjust`: on failure the error is logged and swallowed, so the
entry is simply not appended. -/
def createTransactionLogged (w : World) (f : Faults) (ty : TransactionType)
    (itemID : String) (fromL toL : Option String) (qty : Int) (ref : String)
    (now : Nat) (user : String) : World :=
  let tx := mkTx (toString w.nextID) ty itemID fromL toL qty ref now user
  if f.txFail then { w with nextID := w.nextID + 1 }
  else { w with journal := w.journal ++ [tx], nextID := w.nextID + 1 }

/-- `Manager.triggerLowStockAlert`: creates an active low-stock alert; a
storage failure is logged and swallowed.  (The subsequent event publish does
not touch persistent state.) -/
def triggerLowStockAlert (w : World) (f : Faults) (itemID locationID : String)
    (currentQty : Int) (now : Nat) : World :=
  let alert : StockAlert :=
    { id := toString w.nextID, type := .lowStock, itemID := itemID,
      locationID := locationID, currentQty := currentQty,
      threshold := w.config.lowStockThreshold,
      message := "low stock at " ++ locationID ++ " for " ++ itemID,
      isActive := true, createdAt := now, resolvedAt := none }
  if f.alertFail then { w with nextID := w.nextID + 1 }
  else { w with alerts := w.alerts ++ [alert], nextID := w.nextID + 1 }

/-- `Manager.Add`: validation, create-or-update of the stock record, event
publish (no persistent state), and the swallowed-on-failure journal write. -/
def addOp (w : World) (f : Faults) (itemID locationID : String) (quantity : Int)
    (reference : String) (now : Nat) (user : String) :
    Except InvError Unit × World :=
  if quantity ≤ 0 then
    (.error (.validationError "quantity" "must be positive" (toString quantity)), w)
  else match validateItemAndLocation w itemID locationID with
  | .error e => (.error e, w)
  | .ok _ =>
    match getStock w itemID locationID with
    | none =>
      let s : Stock := Stock.calculateAvailable
        { itemID := itemID, locationID := locationID, quantity := quantity,
          reserved := 0, available := 0, version := 1, updatedAt := now,
          updatedBy := user }
      let w1 := { w with stocks := w.stocks ++ [s] }
      let w2 := createTransactionLogged w1 f .inbound itemID none (some locationID)
        quantity reference now user
      (.ok (), w2)
    | some stock =>
      let s := Stock.calculateAvailable
        { stock with quantity := stock.quantity + quantity,
                     version := stock.version + 1, updatedAt := now,
                     updatedBy := user }
      match updateStockDB w.stocks s with
      | .error e => (.error (.storageError "update_stock" "stock update failed" e), w)
      | .ok stocks1 =>
        let w1 := { w with stocks := stocks1 }
        let w2 := createTransactionLogged w1 f .inbound itemID none (some locationID)
          quantity reference now user
        (.ok (), w2)

/-- `Manager.Remove`: availability check against the stored derived
`available`, decrement, post-subtraction negative-stock policy check, CAS
write, low-stock alert trigger, and the swallowed-on-failure journal write.
`ErrStockNotFound` from `GetStock` is mapped to `ErrInsufficientStock`. -/
def removeOp (w : World) (f : Faults) (itemID locationID : String)
    (quantity : Int) (reference : String) (now : Nat) (user : String) :
    Except InvError Unit × World :=
  if quantity ≤ 0 then
    (.error (.validationError "quantity" "must be positive" (toString quantity)), w)
  else match validateItemAndLocation w itemID locationID with
  | .error e => (.error e, w)
  | .ok _ =>
    match getStock w itemID locationID with
    | none => (.error .insufficientStock, w)
    | some stock =>
      if stock.available < quantity then (.error .insufficientStock, w)
      else
        let s := Stock.calculateAvailable
          { stock with quantity := stock.quantity - quantity,
                       version := stock.version + 1, updatedAt := now,
                       updatedBy := user }
        if !w.config.allowNegativeStock && s.quantity < 0 then
          (.error (.businessRuleError "negative_stock" "negative stock not allowed"
            (itemID ++ "," ++ locationID)), w)
        else match updateStockDB w.stocks s with
        | .error e => (.error (.storageError "update_stock" "stock update failed" e), w)
        | .ok stocks1 =>
          let w1 := { w with stocks := stocks1 }
          let w2 := if s.quantity ≤ w.config.lowStockThreshold then
              triggerLowStockAlert w1 f itemID locationID s.quantity now
            else w1
          let w3 := createTransactionLogged w2 f .outbound itemID (some locationID)
            none quantity reference now user
          (.ok (), w3)

/-- `Manager.Adjust`: sets the quantity to an absolute value; the journal entry
records the delta (new - old). -/
def adjustOp (w : World) (f : Faults) (itemID locationID : String)
    (newQuantity : Int) (reference : String) (now : Nat) (user : String) :
    Except InvError Unit × World :=
  if newQuantity < 0 && !w.config.allowNegativeStock then
    (.error (.validationError "quantity" "negative stock not allowed" (toString newQuantity)), w)
  else match validateItemAndLocation w itemID locationID with
  | .error e => (.error e, w)
  | .ok _ =>
    match getStock w itemID locationID with
    | none =>
      let s : Stock := Stock.calculateAvailable
        { itemID := itemID, locationID := locationID, quantity := newQuantity,
          reserved := 0, available := 0, version := 1, updatedAt := now,
          updatedBy := user }
      let w1 := { w with stocks := w.stocks ++ [s] }
      let w2 := createTransactionLogged w1 f .adjust itemID none (some locationID)
        (newQuantity - 0) reference now user
      (.ok (), w2)
    | some stock =>
      let s := Stock.calculateAvailable
        { stock with quantity := newQuantity, version := stock.version + 1,
                     updatedAt := now, updatedBy := user }
      match updateStockDB w.stocks s with
      | .error e => (.error (.storageError "update_stock" "stock update failed" e), w)
      | .ok stocks1 =>
        let w1 := { w with stocks := stocks1 }
        let w2 := createTransactionLogged w1 f .adjust itemID none (some locationID)
          (newQuantity - stock.quantity) reference now user
        (.ok (), w2)

/-- `Manager.Transfer`: Remove from the source, Add to the destination, a
best-effort compensating Add (reference tagged `_ROLLBACK`, its own failure
only logged) when the second leg fails, then a transfer journal entry. -/
def transferOp (w : World) (f : Faults) (itemID fromLocationID toLocationID : String)
    (quantity : Int) (reference : String) (now : Nat) (user : String) :
    Except InvError Unit × World :=
  if quantity ≤ 0 then
    (.error (.validationError "quantity" "must be positive" (toString quantity)), w)
  else if fromLocationID == toLocationID then
    (.error (.validationError "location" "same source and destination"
      (fromLocationID ++ " -> " ++ toLocationID)), w)
  else match validateItemAndLocation w itemID fromLocationID with
  | .error e => (.error e, w)
  | .ok _ =>
    match validateItemAndLocation w itemID toLocationID with
    | .error e => (.error e, w)
    | .ok _ =>
      match removeOp w f itemID fromLocationID quantity reference now user with
      | (.error e, w1) => (.error e, w1)
      | (.ok _, w1) =>
        match addOp w1 f itemID toLocationID quantity reference now user with
        | (.error e, w2) =>
          let rb := addOp w2 f itemID fromLocationID quantity
            (reference ++ "_ROLLBACK") now user
          (.error e, rb.2)
        | (.ok _, w2) =>
          let w3 := createTransactionLogged w2 f .transfer itemID
            (some fromLocationID) (some toLocationID) quantity reference now user
          (.ok (), w3)

/-- `Manager.Reserve`: no catalog validation; any `GetStock` error is wrapped
into a storage error; fails `ErrInsufficientStock` when `available < qty`;
mutates `reserved` only; writes no journal entry. -/
def reserveOp (w : World) (f : Faults) (itemID locationID : String)
    (quantity : Int) (reference : String) (now : Nat) (user : String) :
    Except InvError Unit × World :=
  if quantity ≤ 0 then
    (.error (.validationError "quantity" "must be positive" (toString quantity)), w)
  else match getStock w itemID locationID with
  | none => (.error (.storageError "get_stock" "stock fetch failed" .stockNotFound), w)
  | some stock =>
    if stock.available < quantity then (.error .insufficientStock, w)
    else
      let s := Stock.calculateAvailable
        { stock with reserved := stock.reserved + quantity,
                     version := stock.version + 1, updatedAt := now,
                     updatedBy := user }
      match updateStockDB w.stocks s with
      | .error e => (.error (.storageError "update_stock" "stock update failed" e), w)
      | .ok stocks1 => (.ok (), { w with stocks := stocks1 })

/-- `Manager.ReleaseReservation`: no catalog validation; fails
`ErrInsufficientReservation` when `reserved < qty`; writes no journal entry. -/
def releaseReservationOp (w : World) (f : Faults) (itemID locationID : String)
    (quantity : Int) (reference : String) (now : Nat) (user : String) :
    Except InvError Unit × World :=
  if quantity ≤ 0 then
    (.error (.validationError "quantity" "must be positive" (toString quantity)), w)
  else match getStock w itemID locationID with
  | none => (.error (.storageError "get_stock" "stock fetch failed" .stockNotFound), w)
  | some stock =>
    if stock.reserved < quantity then (.error .insufficientReservation, w)
    else
      let s := Stock.calculateAvailable
        { stock with reserved := stock.reserved - quantity,
                     version := stock.version + 1, updatedAt := now,
                     updatedBy := user }
      match updateStockDB w.stocks s with
      | .error e => (.error (.storageError "update_stock" "stock update failed" e), w)
      | .ok stocks1 => (.ok (), { w with stocks := stocks1 })

/-! ## Batch executor (`Manager.ExecuteBatch`) -/

/-- One requested batch operation (`types.go`, `InventoryOperation`).
`OperationType` is a Go string type, so arbitrary strings are representable
and hit the `default` branch of the dispatch. -/
structure InventoryOperation where
  type : String
  itemID : String
  locationID : String
  quantity : Int
  reference : String
  toLocationID : Option String
deriving DecidableEq, Repr

/-- Per-index failure record (`types.go`, `BatchOperationError`); the error is
kept structured rather than rendered to its message string. -/
structure BatchOperationError where
  operationIndex : Nat
  error : InvError
deriving DecidableEq, Repr

/-- `BatchStatus` constants in `types.go`. -/
inductive BatchStatus where
  | pending
  | completed
  | failed
deriving DecidableEq, Repr

/-- Batch outcome aggregate (`types.go`, `BatchOperation`); the passive
`Operations`/timestamps fields are omitted. -/
structure BatchOperation where
  id : String
  status : BatchStatus
  successCount : Nat
  failureCount : Nat
  errors : List BatchOperationError
deriving DecidableEq, Repr

/-- The dispatch in `ExecuteBatch`'s loop body, including the missing
destination check for transfers and the default branch for unknown types. -/
def applyBatchOp (w : World) (f : Faults) (op : InventoryOperation)
    (now : Nat) (user : String) : Except InvError Unit × World :=
  if op.type == "add" then
    addOp w f op.itemID op.locationID op.quantity op.reference now user
  else if op.type == "remove" then
    removeOp w f op.itemID op.locationID op.quantity op.reference now user
  else if op.type == "transfer" then
    match op.toLocationID with
    | none => (.error (.genericError "destination location not specified"), w)
    | some toLoc =>
      transferOp w f op.itemID op.locationID toLoc op.quantity op.reference now user
  else if op.type == "adjust" then
    adjustOp w f op.itemID op.locationID op.quantity op.reference now user
  else
    (.error (.genericError ("unknown operation type: " ++ op.type)), w)

/-- The `ExecuteBatch` loop: every operation is executed in order regardless
of earlier failures; successes and failures are counted and failures recorded
with their operation index.  Returns (successCount, failureCount, errors,
final world). -/
def runBatch (f : Faults) (now : Nat) (user : String) :
    World → List InventoryOperation → Nat →
    Nat × Nat × List BatchOperationError × World
  | w, [], _ => (0, 0, [], w)
  | w, op :: rest, i =>
    let r := applyBatchOp w f op now user
    let t := runBatch f now user r.2 rest (i + 1)
    match r.1 with
    | .ok _ => (t.1 + 1, t.2.1, t.2.2.1, t.2.2.2)
    | .error e => (t.1, t.2.1 + 1, ⟨i, e⟩ :: t.2.2.1, t.2.2.2)

/-- `Manager.ExecuteBatch`: run all operations, then set the final status:
`Failed` when the failure count is positive, `Completed` otherwise. -/
def executeBatch (w : World) (f : Faults) (ops : List InventoryOperation)
    (now : Nat) (user : String) : BatchOperation × World :=
  let r := runBatch f now user w ops 0
  ({ id := toString w.nextID,
     status := if r.2.1 > 0 then .failed else .completed,
     successCount := r.1,
     failureCount := r.2.1,
     errors := r.2.2.1 }, r.2.2.2)

/-- The success/failure outcome of each operation along the batch run (used to
state the claim's "exactly k fail"). -/
def batchOutcomes (f : Faults) (now : Nat) (user : String) :
    World → List InventoryOperation → List Bool
  | _, [] => []
  | w, op :: rest =>
    let r := applyBatchOp w f op now user
    (match r.1 with | .ok _ => true | .error _ => false)
      :: batchOutcomes f now user r.2 rest

/-- Pure world evolution of the batch: each operation applied to the world
left by its predecessor, with no influence from earlier failures. -/
def worldAfterOps (f : Faults) (now : Nat) (user : String)
    (w : World) (ops : List InventoryOperation) : World :=
  ops.foldl (fun w op => (applyBatchOp w f op now user).2) w

/-! ## Valuation engine (`ValuationEngineImpl`) -/

/-- Ascending creation-time order (`calculateFIFO` sorts with
`CreatedAt.Before`). -/
def byCreatedAsc (a b : Transaction) : Prop := a.createdAt ≤ b.createdAt

/-- Descending creation-time order (`calculateLIFO` and the
`ORDER BY created_at DESC` of `GetTransactionHistory`). -/
def byCreatedDesc (a b : Transaction) : Prop := b.createdAt ≤ a.createdAt

instance : DecidableRel byCreatedAsc := fun a b => Nat.decLe a.createdAt b.createdAt

instance : DecidableRel byCreatedDesc := fun a b => Nat.decLe b.createdAt a.createdAt

instance : IsTotal Transaction byCreatedAsc := ⟨fun a b => Nat.le_total a.createdAt b.createdAt⟩

instance : IsTotal Transaction byCreatedDesc := ⟨fun a b => Nat.le_total b.createdAt a.createdAt⟩

instance : IsTrans Transaction byCreatedAsc := ⟨fun _ _ _ h h2 => Nat.le_trans h h2⟩

instance : IsTrans Transaction byCreatedDesc := ⟨fun _ _ _ h h2 => Nat.le_trans h2 h⟩

/-- `PostgreSQLStorage.GetTransactionHistory`: all of the item's journal
entries, newest first, truncated to the caller's limit.  The source sorts with
the strict `created_at DESC`; for distinct timestamps any correct sort yields
the same list, realised here by a stable insertion sort. -/
def getTransactionHistory (journal : List Transaction) (itemID : String)
    (limit : Nat) : List Transaction :=
  (List.insertionSort byCreatedDesc
    (journal.filter (fun t => t.itemID == itemID))).take limit

/-- `unitCost != nil && *unitCost > 0`. -/
def hasPositiveCost (t : Transaction) : Bool :=
  match t.unitCost with
  | some c => decide (0 < c)
  | none => false

/-- `ValuationEngineImpl.getInboundTransactions`: inbound or transfer entries
credited to the requested location, carrying a positive unit cost, drawn from
the newest 10000 entries of the item. -/
def getInboundTransactions (journal : List Transaction)
    (itemID locationID : String) : List Transaction :=
  (getTransactionHistory journal itemID 10000).filter (fun t =>
    ((t.type == .inbound && t.toLocation == some locationID) ||
     (t.type == .transfer && t.toLocation == some locationID)) &&
    hasPositiveCost t)

/-- `ValuationEngineImpl.calculateValueFromTransactions`: consume cost layers
in list order until the on-hand quantity is covered, taking a partial amount
from the final layer. -/
def calculateValueFromTransactions : List Transaction → Int → ℚ
  | [], _ => 0
  | tx :: rest, remaining =>
    if remaining ≤ 0 then 0
    else
      match tx.unitCost with
      | none => calculateValueFromTransactions rest remaining
      | some c =>
        let useQty := if tx.quantity > remaining then remaining else tx.quantity
        c * (useQty : ℚ) + calculateValueFromTransactions rest (remaining - useQty)

/-- `ValuationEngineImpl.calculateFIFO`: layers consumed oldest first. -/
def calculateFIFO (journal : List Transaction) (itemID locationID : String)
    (quantity : Int) : ℚ :=
  calculateValueFromTransactions
    (List.insertionSort byCreatedAsc (getInboundTransactions journal itemID locationID))
    quantity

/-- `ValuationEngineImpl.calculateLIFO`: layers consumed newest first. -/
def calculateLIFO (journal : List Transaction) (itemID locationID : String)
    (quantity : Int) : ℚ :=
  calculateValueFromTransactions
    (List.insertionSort byCreatedDesc (getInboundTransactions journal itemID locationID))
    quantity

/-- Filter of `GetAverageCost`'s accumulation loop: inbound entries with a
positive unit cost — with no location condition. -/
def inboundCostFilter (t : Transaction) : Bool :=
  t.type == .inbound && hasPositiveCost t

/-- `ValuationEngineImpl.GetAverageCost`: total inbound cost divided by total
inbound quantity over the item's newest 1000 journal entries, across all
locations; errors when no inbound quantity with positive cost exists. -/
def getAverageCost (journal : List Transaction) (itemID : String) :
    Except InvError ℚ :=
  let txs := getTransactionHistory journal itemID 1000
  let inb := txs.filter inboundCostFilter
  let totalCost : ℚ := (inb.map (fun t => t.unitCost.getD 0 * (t.quantity : ℚ))).sum
  let totalQuantity : Int := (inb.map (fun t => t.quantity)).sum
  if totalQuantity = 0 then
    .error (.genericError "insufficient data for average cost")
  else
    .ok (totalCost / (totalQuantity : ℚ))

/-- `ValuationEngineImpl.calculateAverage`: item-wide average cost times the
on-hand quantity at the requested location (the location argument is unused
by the average itself, mirroring the source). -/
def calculateAverage (journal : List Transaction) (itemID locationID : String)
    (quantity : Int) : Except InvError ℚ :=
  (getAverageCost journal itemID).map (fun c => c * (quantity : ℚ))

/-- `ValuationEngineImpl.calculateStandard`: catalog unit cost times on-hand
quantity; errors when the catalog cost is zero or unset. -/
def calculateStandard (w : World) (itemID : String) (quantity : Int) :
    Except InvError ℚ :=
  match getItem w itemID with
  | none => .error (.storageError "get_item" "item fetch failed" .itemNotFound)
  | some item =>
    if item.unitCost ≤ 0 then .error (.genericError "no standard cost configured")
    else .ok (item.unitCost * (quantity : ℚ))

/-- `ValuationMethod` constants. -/
inductive ValuationMethod where
  | fifo
  | lifo
  | average
  | standard
deriving DecidableEq, Repr

/-- `ValuationEngineImpl.CalculateValue`: returns 0 for non-positive on-hand
quantity, otherwise dispatches on the method. -/
def calculateValue (w : World) (itemID locationID : String)
    (method : ValuationMethod) : Except InvError ℚ :=
  match getStock w itemID locationID with
  | none => .error (.storageError "get_stock" "stock fetch failed" .stockNotFound)
  | some stock =>
    if stock.quantity ≤ 0 then .ok 0
    else
      match method with
      | .fifo => .ok (calculateFIFO w.journal itemID locationID stock.quantity)
      | .lifo => .ok (calculateLIFO w.journal itemID locationID stock.quantity)
      | .average => calculateAverage w.journal itemID locationID stock.quantity
      | .standard => calculateStandard w itemID stock.quantity

/-! ## ABC classifier (`AnalyticsEngineImpl`) -/

/-- Ascending item-id order of `ListStockByLocation` (`ORDER BY item_id`). -/
def byItemAsc (a b : Stock) : Prop := a.itemID ≤ b.itemID

instance : DecidableRel byItemAsc := fun a b => inferInstanceAs (Decidable (a.itemID ≤ b.itemID))

instance : IsTotal Stock byItemAsc := ⟨fun a b => le_total a.itemID b.itemID⟩

instance : IsTrans Stock byItemAsc := ⟨fun _ _ _ h h2 => le_trans h h2⟩

/-- `PostgreSQLStorage.ListStockByLocation`. -/
def listStockByLocation (w : World) (locationID : String) : List Stock :=
  List.insertionSort byItemAsc (w.stocks.filter (fun s => s.locationID == locationID))

/-- The per-item annual-value estimates computed by
`CalculateABCClassification`: `float64(stock.Quantity * 10) * item.UnitCost`,
in stock-list order; items whose catalog lookup fails are skipped. -/
def abcEstimates (w : World) (locationID : String) : List (String × ℚ) :=
  (listStockByLocation w locationID).filterMap (fun s =>
    (getItem w s.itemID).map (fun item =>
      (s.itemID, ((s.quantity * 10 : Int) : ℚ) * item.unitCost)))

/-- Descending estimated-value order (`sort.Slice` with `Value >`). -/
def byValueDesc (a b : String × ℚ) : Prop := b.2 ≤ a.2

instance : DecidableRel byValueDesc := fun a b => inferInstanceAs (Decidable (b.2 ≤ a.2))

instance : IsTotal (String × ℚ) byValueDesc := ⟨fun a b => le_total b.2 a.2⟩

instance : IsTrans (String × ℚ) byValueDesc := ⟨fun _ _ _ h h2 => le_trans h2 h⟩

/-- The 80/95 Pareto cut points of `classifyABC`. -/
def abcClass (pct : ℚ) : String :=
  if pct ≤ 8 / 10 then "A" else if pct ≤ 95 / 100 then "B" else "C"

/-- The cumulative-share assignment loop of `classifyABC`. -/
def assignABC (total : ℚ) : ℚ → List (String × ℚ) → List (String × String)
  | _, [] => []
  | cum, (i, v) :: rest =>
    let cum2 := cum + v
    (i, abcClass (cum2 / total)) :: assignABC total cum2 rest

/-- `AnalyticsEngineImpl.classifyABC`, as a function of the order in which the
`itemValues` map is iterated.  In Go that iteration order is unspecified (map
range order) and the subsequent `sort.Slice` is not stable, so the relative
order of equal values is not determined; this embedding therefore takes the
iterated association list as its input, sorted here by a concrete
order-preserving sort. -/
def classifyABC (itemValues : List (String × ℚ)) : List (String × String) :=
  let total := (itemValues.map Prod.snd).sum
  assignABC total 0 (List.insertionSort byValueDesc itemValues)

/-! ## Concrete fixtures used by witnesses and counterexamples -/

/-- A catalog item fixture. -/
def itemA : Item := { id := "A", name := "Widget", sku := "SKU-A", unitCost := 10 }

/-- A location fixture. -/
def locL1 : Location := { id := "L1", name := "Main", isActive := true }

/-- A second location fixture. -/
def locL2 : Location := { id := "L2", name := "Spare", isActive := true }

/-- Default manager configuration (negative stock disallowed, threshold 10),
as built by `NewManager` when no config is supplied. -/
def cfg0 : Config := { allowNegativeStock := false, lowStockThreshold := 10 }

/-- A stock record fixture: 100 on hand, 20 reserved, 80 available. -/
def stockA1 : Stock :=
  { itemID := "A", locationID := "L1", quantity := 100, reserved := 20,
    available := 80, version := 3, updatedAt := 0, updatedBy := "u" }

/-- A well-formed world fixture. -/
def w0 : World :=
  { items := [itemA], locations := [locL1, locL2], stocks := [stockA1],
    journal := [], alerts := [], nextID := 0, config := cfg0 }

/-- A world whose catalog is empty but whose stocks table still holds a
record (used against the Reserve catalog-validation claim). -/
def w5 : World :=
  { items := [], locations := [], stocks := [stockA1],
    journal := [], alerts := [], nextID := 0, config := cfg0 }

/-- An already-resolved (inactive) alert fixture. -/
def alertInactive : StockAlert :=
  { id := "AL1", type := .lowStock, itemID := "A", locationID := "L1",
    currentQty := 5, threshold := 10, message := "m", isActive := false,
    createdAt := 0, resolvedAt := some 3 }

/-- First inbound cost layer: 100 units at unit cost 10, time 1. -/
def txLayer1 : Transaction :=
  { id := "1", type := .inbound, itemID := "I", fromLocation := none,
    toLocation := some "L", quantity := 100, unitCost := some 10,
    reference := "r1", createdAt := 1, createdBy := "u" }

/-- Second inbound cost layer: 100 units at unit cost 20, time 2. -/
def txLayer2 : Transaction :=
  { id := "2", type := .inbound, itemID := "I", fromLocation := none,
    toLocation := some "L", quantity := 100, unitCost := some 20,
    reference := "r2", createdAt := 2, createdBy := "u" }

/-- An inbound layer of the same item credited to another location, time 3. -/
def txLayerOtherLoc : Transaction :=
  { id := "3", type := .inbound, itemID := "I", fromLocation := none,
    toLocation := some "M", quantity := 100, unitCost := some 40,
    reference := "r3", createdAt := 3, createdBy := "u" }

/-- The two-layer journal of the FIFO/LIFO claim. -/
def journal2 : List Transaction := [txLayer1, txLayer2]

/-- The operation indices at which a batch run failed, counting from `i`. -/
def falseIndicesFrom : Nat → List Bool → List Nat
  | _, [] => []
  | i, b :: rest =>
    if b then falseIndicesFrom (i + 1) rest else i :: falseIndicesFrom (i + 1) rest

/-- First racing writer's proposed record (version 3 → 4). -/
def stockCasA : Stock :=
  { stockA1 with quantity := 90, available := 70, version := 4, updatedBy := "alice" }

/-- Second racing writer's proposed record, computed from the same read. -/
def stockCasB : Stock :=
  { stockA1 with quantity := 95, available := 75, version := 4, updatedBy := "bob" }

/-- The average cost the claim describes, defined from the claim's words:
total inbound cost ÷ total inbound quantity over ALL of the item's historical
inbound entries (positive unit cost), across all locations, with no history
window. -/
def allInboundAverageCost (journal : List Transaction) (itemID : String) : ℚ :=
  let inb := (journal.filter (fun t => t.itemID == itemID)).filter inboundCostFilter
  ((inb.map (fun t => t.unitCost.getD 0 * (t.quantity : ℚ))).sum) /
    ((((inb.map (fun t => t.quantity)).sum : Int)) : ℚ)

/-- A cheap inbound layer, timestamp 1 (the newest entries). -/
def txCheap : Transaction :=
  { id := "c", type := .inbound, itemID := "I", fromLocation := none,
    toLocation := some "L", quantity := 1, unitCost := some 1,
    reference := "", createdAt := 1, createdBy := "u" }

/-- An older, more expensive inbound layer, timestamp 0. -/
def txOld : Transaction :=
  { id := "o", type := .inbound, itemID := "I", fromLocation := none,
    toLocation := some "L", quantity := 1, unitCost := some 3,
    reference := "", createdAt := 0, createdBy := "u" }

/-- A journal with 1001 inbound entries for the item: 1000 new cheap layers
and one older expensive layer. -/
def journalCapped : List Transaction := List.replicate 1000 txCheap ++ [txOld]

/-- On-hand stock fixture at the valuation location: 150 units. -/
def stockIL : Stock :=
  { itemID := "I", locationID := "L", quantity := 150, reserved := 0,
    available := 150, version := 1, updatedAt := 0, updatedBy := "u" }

/-- Valuation world: two inbound layers at location L plus one inbound layer
of the same item at another location M. -/
def w8 : World :=
  { items := [], locations := [], stocks := [stockIL],
    journal := [txLayer1, txLayer2, txLayerOtherLoc], alerts := [],
    nextID := 0, config := cfg0 }

/-- An inbound cost layer fixture for the two-layer valuation theorem. -/
def mkLayer (item loc : String) (q : Int) (c : ℚ) (t : Nat) : Transaction :=
  { id := toString t, type := .inbound, itemID := item, fromLocation := none,
    toLocation := some loc, quantity := q, unitCost := some c,
    reference := "layer", createdAt := t, createdBy := "u" }

/-- Strict descending estimated-value order, used to show uniqueness of the
sorted order when estimates are pairwise distinct. -/
def byValueStrictDesc (a b : String × ℚ) : Prop := b.2 < a.2

instance : IsAntisymm (String × ℚ) byValueStrictDesc :=
  ⟨fun _ _ h1 h2 => absurd h2 (lt_asymm h1)⟩

/-- `AnalyticsEngineImpl.CalculateABCClassification` builds the location's
estimate map and classifies it; Go then ranges over that map in an
UNSPECIFIED order before the (non-stable) `sort.Slice`, so the call is
nondeterministic in the order tied estimates reach the sort.  This relation
holds of exactly the results the call may return: one classification per
admissible iteration order (a permutation of the computed estimates). -/
def calculateABCClassification (w : World) (locationID : String)
    (result : Except InvError (List (String × String))) : Prop :=
  ∃ iter, List.Perm iter (abcEstimates w locationID) ∧
    result = .ok (classifyABC iter)

/-- Catalog items for the ABC cut-point fixture. -/
def itemP : Item := { id := "P", name := "P", sku := "SKU-P", unitCost := 1 }

/-- Second catalog item of the ABC cut-point fixture. -/
def itemQ : Item := { id := "Q", name := "Q", sku := "SKU-Q", unitCost := 1 / 2 }

/-- Third catalog item of the ABC cut-point fixture. -/
def itemR : Item := { id := "R", name := "R", sku := "SKU-R", unitCost := 1 / 2 }

/-- Stock of P at location L: 8 on hand, estimate 8 × 10 × 1 = 80. -/
def stockP9 : Stock :=
  { itemID := "P", locationID := "L", quantity := 8, reserved := 0,
    available := 8, version := 1, updatedAt := 0, updatedBy := "u" }

/-- Stock of Q at location L: 3 on hand, estimate 3 × 10 × (1/2) = 15. -/
def stockQ9 : Stock :=
  { itemID := "Q", locationID := "L", quantity := 3, reserved := 0,
    available := 3, version := 1, updatedAt := 0, updatedBy := "u" }

/-- Stock of R at location L: 1 on hand, estimate 1 × 10 × (1/2) = 5. -/
def stockR9 : Stock :=
  { itemID := "R", locationID := "L", quantity := 1, reserved := 0,
    available := 1, version := 1, updatedAt := 0, updatedBy := "u" }

/-- ABC cut-point fixture world: three items at one location whose estimated
annual values are 80, 15 and 5. -/
def w9 : World :=
  { items := [itemP, itemQ, itemR], locations := [locL1],
    stocks := [stockP9, stockQ9, stockR9], journal := [], alerts := [],
    nextID := 0, config := cfg0 }

/-- Catalog item X of the tie fixture. -/
def itemX : Item := { id := "X", name := "X", sku := "SKU-X", unitCost := 1 }

/-- Catalog item Y of the tie fixture. -/
def itemY : Item := { id := "Y", name := "Y", sku := "SKU-Y", unitCost := 1 }

/-- Stock of X at location L: 5 on hand, estimate 50. -/
def stockXT : Stock :=
  { itemID := "X", locationID := "L", quantity := 5, reserved := 0,
    available := 5, version := 1, updatedAt := 0, updatedBy := "u" }

/-- Stock of Y at location L: 5 on hand, estimate 50 — tied with X. -/
def stockYT : Stock :=
  { itemID := "Y", locationID := "L", quantity := 5, reserved := 0,
    available := 5, version := 1, updatedAt := 0, updatedBy := "u" }

/-- Tie fixture world: two items at one location with equal estimated annual
values. -/
def wTie : World :=
  { items := [itemX, itemY], locations := [locL1],
    stocks := [stockXT, stockYT], journal := [], alerts := [],
    nextID := 0, config := cfg0 }


/-! ## General lemmas -/

theorem count_true_add_count_false (l : List Bool) :
    l.count true + l.count false = l.length := by
  induction l with
  | nil => rfl
  | cons b rest ih =>
    cases b <;> simp [List.count_cons] <;> omega

theorem runBatch_spec (f : Faults) (now : Nat) (user : String) :
    ∀ (ops : List InventoryOperation) (w : World) (i : Nat),
    (runBatch f now user w ops i).1 = (batchOutcomes f now user w ops).count true ∧
    (runBatch f now user w ops i).2.1 = (batchOutcomes f now user w ops).count false ∧
    (runBatch f now user w ops i).2.2.1.map (fun e => e.operationIndex) =
      falseIndicesFrom i (batchOutcomes f now user w ops) ∧
    (runBatch f now user w ops i).2.2.2 = worldAfterOps f now user w ops := by
  intro ops
  induction ops with
  | nil => intro w i; simp [runBatch, batchOutcomes, worldAfterOps, falseIndicesFrom]
  | cons op rest ih =>
    intro w i
    obtain ⟨h1, h2, h3, h4⟩ := ih (applyBatchOp w f op now user).2 (i + 1)
    cases hres : (applyBatchOp w f op now user).1 with
    | ok a =>
      simp [runBatch, batchOutcomes, worldAfterOps, falseIndicesFrom, hres,
        List.count_cons, h1, h2, h3, h4, List.foldl_cons]
    | error e =>
      simp [runBatch, batchOutcomes, worldAfterOps, falseIndicesFrom, hres,
        List.count_cons, h1, h2, h3, h4, List.foldl_cons]

theorem batchOutcomes_length (f : Faults) (now : Nat) (user : String) :
    ∀ (ops : List InventoryOperation) (w : World),
    (batchOutcomes f now user w ops).length = ops.length := by
  intro ops
  induction ops with
  | nil => intro w; rfl
  | cons op rest ih => intro w; simp [batchOutcomes, ih]

/-- Claim C10: for every list of N batch operations of which exactly k fail,
`ExecuteBatch` executes every operation regardless of earlier failures (the
final world is the plain fold of the per-operation step, with no influence
from, or undoing of, other outcomes), and returns SuccessCount = N − k,
FailureCount = k, the per-index error list, and Status = Failed iff k > 0
(Completed otherwise). -/
theorem executeBatch_partial_failure_semantics (w : World) (f : Faults)
    (ops : List InventoryOperation) (now : Nat) (user : String) :
    (executeBatch w f ops now user).1.successCount =
        ops.length - (batchOutcomes f now user w ops).count false ∧
    (executeBatch w f ops now user).1.failureCount =
        (batchOutcomes f now user w ops).count false ∧
    ((executeBatch w f ops now user).1.status = .failed ↔
        0 < (batchOutcomes f now user w ops).count false) ∧
    ((executeBatch w f ops now user).1.status = .completed ↔
        (batchOutcomes f now user w ops).count false = 0) ∧
    (executeBatch w f ops now user).1.errors.map (fun e => e.operationIndex) =
        falseIndicesFrom 0 (batchOutcomes f now user w ops) ∧
    (executeBatch w f ops now user).2 = worldAfterOps f now user w ops := by
  obtain ⟨h1, h2, h3, h4⟩ := runBatch_spec f now user ops w 0
  have hlen := batchOutcomes_length f now user ops w
  have hk := count_true_add_count_false (batchOutcomes f now user w ops)
  refine ⟨?_, ?_, ?_, ?_, ?_, ?_⟩
  · simp only [executeBatch, h1]; omega
  · simp only [executeBatch, h2]
  · simp only [executeBatch, h2]
    split <;> simp_all
  · simp only [executeBatch, h2]
    by_cases hp : 0 < (batchOutcomes f now user w ops).count false
    · simp [hp]
      omega
    · simp [hp]
      omega
  · simp only [executeBatch, h3]
  · simp only [executeBatch, h4]

theorem createTransactionLogged_stocks (w : World) (f : Faults)
    (ty : TransactionType) (itemID : String) (fromL toL : Option String)
    (qty : Int) (ref : String) (now : Nat) (user : String) :
    (createTransactionLogged w f ty itemID fromL toL qty ref now user).stocks = w.stocks := by
  simp only [createTransactionLogged]
  split <;> rfl

theorem createTransactionLogged_alerts (w : World) (f : Faults)
    (ty : TransactionType) (itemID : String) (fromL toL : Option String)
    (qty : Int) (ref : String) (now : Nat) (user : String) :
    (createTransactionLogged w f ty itemID fromL toL qty ref now user).alerts = w.alerts := by
  simp only [createTransactionLogged]
  split <;> rfl

theorem triggerLowStockAlert_stocks (w : World) (f : Faults)
    (itemID locationID : String) (qty : Int) (now : Nat) :
    (triggerLowStockAlert w f itemID locationID qty now).stocks = w.stocks := by
  simp only [triggerLowStockAlert]
  split <;> rfl

theorem triggerLowStockAlert_journal (w : World) (f : Faults)
    (itemID locationID : String) (qty : Int) (now : Nat) :
    (triggerLowStockAlert w f itemID locationID qty now).journal = w.journal := by
  simp only [triggerLowStockAlert]
  split <;> rfl

theorem stockKey_eq_true {item loc : String} {s : Stock} :
    stockKey item loc s = true ↔ s.itemID = item ∧ s.locationID = loc := by
  simp [stockKey, Bool.and_eq_true, beq_iff_eq]

theorem casMatch_eq_true {s r : Stock} :
    casMatch s r = true ↔
      r.itemID = s.itemID ∧ r.locationID = s.locationID ∧ r.version = s.version - 1 := by
  simp [casMatch, Bool.and_eq_true, beq_iff_eq, and_assoc]

theorem stockKey_of_casMatch {item loc : String} {s1 r : Stock}
    (h1 : stockKey item loc s1 = true) (h : casMatch s1 r = true) :
    stockKey item loc r = true := by
  rw [stockKey_eq_true] at h1 ⊢
  rw [casMatch_eq_true] at h
  exact ⟨h.1.trans h1.1, h.2.1.trans h1.2⟩

/-- After a successful conditional UPDATE, the row found at the key is the
newly written record. -/
theorem find?_cas_update {item loc : String} {s1 : Stock}
    (hkey1 : stockKey item loc s1 = true) :
    ∀ (stocks : List Stock) (s : Stock),
    stocks.find? (stockKey item loc) = some s →
    casMatch s1 s = true →
    (stocks.map (fun r => if casMatch s1 r then s1 else r)).find? (stockKey item loc) =
      some s1 := by
  intro stocks
  induction stocks with
  | nil => intro s h _; simp at h
  | cons r t ih =>
    intro s hfind hcas
    by_cases hk : stockKey item loc r = true
    · rw [List.find?_cons_of_pos _ hk] at hfind
      injection hfind with hs
      subst hs
      simp only [List.map_cons, if_pos hcas]
      exact List.find?_cons_of_pos _ hkey1
    · rw [List.find?_cons_of_neg _ (by simpa using hk)] at hfind
      have hnc : ¬ casMatch s1 r = true := fun hc => hk (stockKey_of_casMatch hkey1 hc)
      simp only [List.map_cons, if_neg hnc]
      rw [List.find?_cons_of_neg _ (by simpa using hk)]
      exact ih s hfind hcas

/-- The conditional UPDATE succeeds when the key row still carries the
pre-read version. -/
theorem updateStockDB_ok_of_found {item loc : String} {stocks : List Stock}
    {s s1 : Stock} (hfind : stocks.find? (stockKey item loc) = some s)
    (hcas : casMatch s1 s = true) :
    updateStockDB stocks s1 = .ok (stocks.map (fun r => if casMatch s1 r then s1 else r)) := by
  unfold updateStockDB
  rw [if_pos (List.any_eq_true.mpr ⟨s, List.mem_of_find?_eq_some hfind, hcas⟩)]

/-- One order of two racing writers that both read version `r.version`: the
first compare-and-swap lands, the row now carries the first writer's record,
and the second compare-and-swap affects zero rows and yields
`ErrVersionMismatch`. -/
theorem cas_second_writer_mismatch (db : List Stock) (r s1 s2 : Stock)
    (item loc : String)
    (hfind : db.find? (stockKey item loc) = some r)
    (huniq : ∀ t ∈ db, stockKey item loc t = true → t = r)
    (h1 : s1.itemID = r.itemID ∧ s1.locationID = r.locationID ∧ s1.version = r.version + 1)
    (h2 : s2.itemID = r.itemID ∧ s2.locationID = r.locationID ∧ s2.version = r.version + 1) :
    updateStockDB db s1 = .ok (db.map (fun t => if casMatch s1 t then s1 else t)) ∧
    (db.map (fun t => if casMatch s1 t then s1 else t)).find? (stockKey item loc) = some s1 ∧
    updateStockDB (db.map (fun t => if casMatch s1 t then s1 else t)) s2 =
      .error .versionMismatch := by
  have hrkey : stockKey item loc r = true := by
    rcases List.find?_some hfind with h
    exact h
  have hrk := stockKey_eq_true.mp hrkey
  have hkey1 : stockKey item loc s1 = true :=
    stockKey_eq_true.mpr ⟨h1.1.trans hrk.1, h1.2.1.trans hrk.2⟩
  have hcas1 : casMatch s1 r = true := by
    rw [casMatch_eq_true]
    exact ⟨h1.1.symm, h1.2.1.symm, by omega⟩
  refine ⟨updateStockDB_ok_of_found hfind hcas1,
    find?_cas_update hkey1 db r hfind hcas1, ?_⟩
  unfold updateStockDB
  rw [if_neg]
  intro hany
  rw [List.any_map, List.any_eq_true] at hany
  obtain ⟨t, htmem, hcast⟩ := hany
  simp only [Function.comp] at hcast
  by_cases hct : casMatch s1 t = true
  · rw [if_pos hct] at hcast
    rw [casMatch_eq_true] at hcast
    omega
  · rw [if_neg hct] at hcast
    have htkey : stockKey item loc t = true := by
      have h2key : stockKey item loc s2 = true :=
        stockKey_eq_true.mpr ⟨h2.1.trans hrk.1, h2.2.1.trans hrk.2⟩
      exact stockKey_of_casMatch h2key hcast
    have : t = r := huniq t htmem htkey
    subst this
    exact hct hcas1

/-- Claim C2: under two concurrent updates to the same stock record that both
start from the same version (both writers propose `version r.version + 1`
conditioned on the row still carrying `r.version`), the storage-level
compare-and-swap serializes them: in either interleaving order exactly one
update succeeds, the surviving row is exactly the successful writer's record,
and the other writer receives `ErrVersionMismatch` (zero rows affected); no
update is silently lost. -/
theorem updateStock_concurrent_one_winner (db : List Stock) (r sA sB : Stock)
    (item loc : String)
    (hfind : db.find? (stockKey item loc) = some r)
    (huniq : ∀ t ∈ db, stockKey item loc t = true → t = r)
    (hA : sA.itemID = r.itemID ∧ sA.locationID = r.locationID ∧ sA.version = r.version + 1)
    (hB : sB.itemID = r.itemID ∧ sB.locationID = r.locationID ∧ sB.version = r.version + 1) :
    (updateStockDB db sA = .ok (db.map (fun t => if casMatch sA t then sA else t)) ∧
     (db.map (fun t => if casMatch sA t then sA else t)).find? (stockKey item loc) = some sA ∧
     updateStockDB (db.map (fun t => if casMatch sA t then sA else t)) sB =
       .error .versionMismatch) ∧
    (updateStockDB db sB = .ok (db.map (fun t => if casMatch sB t then sB else t)) ∧
     (db.map (fun t => if casMatch sB t then sB else t)).find? (stockKey item loc) = some sB ∧
     updateStockDB (db.map (fun t => if casMatch sB t then sB else t)) sA =
       .error .versionMismatch) :=
  ⟨cas_second_writer_mismatch db r sA sB item loc hfind huniq hA hB,
   cas_second_writer_mismatch db r sB sA item loc hfind huniq hB hA⟩

/-- Witness for the C2 theorem at a concrete one-row table and two concrete
racing writers. -/
theorem updateStock_concurrent_one_winner_witness :
    ([stockA1].find? (stockKey "A" "L1") = some stockA1) ∧
    updateStockDB ([stockA1].map (fun t => if casMatch stockCasA t then stockCasA else t))
      stockCasB = .error .versionMismatch :=
  ⟨by decide,
   (updateStock_concurrent_one_winner [stockA1] stockA1 stockCasA stockCasB "A" "L1"
      (by decide) (by decide) (by decide) (by decide)).1.2.2⟩

/-- Claim C1: for every stock record and qty > 0 on an existing item and
location: when the record's available (consistent with its derivation
`available = quantity - reserved`) is at least qty, Remove succeeds and the
stored record afterwards has quantity and available decreased by exactly qty
and version incremented by 1; when available is less than qty, Remove fails
with `ErrInsufficientStock` and the entire world — in particular the stock
record — is unchanged. -/
theorem remove_available_guard (w : World) (f : Faults)
    (itemID locationID : String) (qty : Int) (s : Stock) (ref : String)
    (now : Nat) (user : String)
    (hq : 0 < qty)
    (hitem : (getItem w itemID).isSome = true)
    (hloc : (getLocation w locationID).isSome = true)
    (hs : getStock w itemID locationID = some s)
    (hinv : s.available = s.quantity - s.reserved)
    (hres : 0 ≤ s.reserved) :
    (qty ≤ s.available →
      (removeOp w f itemID locationID qty ref now user).1 = .ok () ∧
      getStock (removeOp w f itemID locationID qty ref now user).2 itemID locationID =
        some { s with quantity := s.quantity - qty,
                      available := s.available - qty,
                      version := s.version + 1,
                      updatedAt := now, updatedBy := user }) ∧
    (s.available < qty →
      (removeOp w f itemID locationID qty ref now user).1 = .error .insufficientStock ∧
      (removeOp w f itemID locationID qty ref now user).2 = w) := by
  obtain ⟨it, hit⟩ := Option.isSome_iff_exists.mp hitem
  obtain ⟨lo, hlo⟩ := Option.isSome_iff_exists.mp hloc
  have hval : validateItemAndLocation w itemID locationID = .ok () := by
    simp [validateItemAndLocation, hit, hlo]
  have hq0 : ¬ qty ≤ 0 := by omega
  have hsf : w.stocks.find? (stockKey itemID locationID) = some s := hs
  constructor
  · intro hle
    have hnotlt : ¬ (s.available < qty) := not_lt.mpr hle
    have hcas : casMatch (Stock.calculateAvailable
        { s with quantity := s.quantity - qty, version := s.version + 1,
                 updatedAt := now, updatedBy := user }) s = true := by
      simp [casMatch, Stock.calculateAvailable]
    have hkeys : stockKey itemID locationID s = true := List.find?_some hsf
    have hkey1 : stockKey itemID locationID (Stock.calculateAvailable
        { s with quantity := s.quantity - qty, version := s.version + 1,
                 updatedAt := now, updatedBy := user }) = true := by
      simpa [Stock.calculateAvailable, stockKey] using hkeys
    have hok := updateStockDB_ok_of_found hsf hcas
    have hfind1 := find?_cas_update hkey1 w.stocks s hsf hcas
    have hnoneg : (!w.config.allowNegativeStock &&
        decide ((Stock.calculateAvailable
          { s with quantity := s.quantity - qty, version := s.version + 1,
                   updatedAt := now, updatedBy := user }).quantity < 0)) = false := by
      have hge : ¬ (s.quantity - qty < 0) := by omega
      simp [Stock.calculateAvailable, hge]
    have havail : s.quantity - qty - s.reserved = s.available - qty := by omega
    refine ⟨?_, ?_⟩ <;>
      simp only [removeOp, getStock, if_neg hq0, hval, hsf, if_neg hnotlt, hnoneg,
        Bool.false_eq_true, if_false, hok, createTransactionLogged_stocks]
    split <;>
      simp only [triggerLowStockAlert_stocks] <;>
      rw [hfind1] <;>
      simp [Stock.calculateAvailable, havail]
  · intro hlt
    constructor
    · simp only [removeOp, if_neg hq0, hval, hs, if_pos hlt]
    · simp only [removeOp, if_neg hq0, hval, hs, if_pos hlt]

/-- Witness for the C1 theorem on the fixture world: removing 50 of the 80
available units succeeds with the expected record; the insufficient branch is
reachable at qty = 81 through the same theorem. -/
theorem remove_available_guard_witness :
    (0 < (50 : Int) ∧ getStock w0 "A" "L1" = some stockA1 ∧
      stockA1.available = stockA1.quantity - stockA1.reserved) ∧
    ((50 : Int) ≤ stockA1.available →
      (removeOp w0 noFaults "A" "L1" 50 "ref" 9 "u2").1 = .ok () ∧
      getStock (removeOp w0 noFaults "A" "L1" 50 "ref" 9 "u2").2 "A" "L1" =
        some { stockA1 with quantity := 50, available := 30, version := 4,
                            updatedAt := 9, updatedBy := "u2" }) :=
  ⟨⟨by decide, by decide, by decide⟩,
   by
    have h := (remove_available_guard w0 noFaults "A" "L1" 50 stockA1 "ref" 9 "u2"
      (by decide) (by decide) (by decide) (by decide) (by decide) (by decide)).1
    intro hle
    have h2 := h hle
    refine ⟨h2.1, ?_⟩
    rw [h2.2]
    decide⟩

/-- Counterexample to claim C5 as stated: in a world whose catalog contains
neither the item nor the location but whose stocks table still has the
record, `Reserve` succeeds instead of failing NotFound — `Manager.Reserve`
never consults the catalog. -/
theorem reserve_skips_catalog_counterexample :
    getItem w5 "A" = none ∧ getLocation w5 "L1" = none ∧
    (reserveOp w5 noFaults "A" "L1" 5 "r" 0 "u").1 = .ok () :=
  ⟨by decide, by decide, by decide⟩

/-- Claim C5 (amended): Add, Remove, Transfer, and Adjust require the item id
and the location id to exist in the catalog and fail `ErrItemNotFound` /
`ErrLocationNotFound` otherwise; Reserve and ReleaseReservation perform no
catalog check at all — their result is unchanged under arbitrary replacement
of the catalog (a missing stock record surfaces there as a wrapped storage
error, not as NotFound). -/
theorem catalog_validation_scope (w : World) (f : Faults)
    (item loc toLoc : String) (q : Int) (ref : String) (now : Nat)
    (user : String) (hq : 0 < q) (hneq : (loc == toLoc) = false) :
    (getItem w item = none →
      (addOp w f item loc q ref now user).1 = .error .itemNotFound ∧
      (removeOp w f item loc q ref now user).1 = .error .itemNotFound ∧
      (adjustOp w f item loc q ref now user).1 = .error .itemNotFound ∧
      (transferOp w f item loc toLoc q ref now user).1 = .error .itemNotFound) ∧
    ((getItem w item).isSome = true → getLocation w loc = none →
      (addOp w f item loc q ref now user).1 = .error .locationNotFound ∧
      (removeOp w f item loc q ref now user).1 = .error .locationNotFound ∧
      (adjustOp w f item loc q ref now user).1 = .error .locationNotFound ∧
      (transferOp w f item loc toLoc q ref now user).1 = .error .locationNotFound) ∧
    (∀ items2 locations2,
      (reserveOp { w with items := items2, locations := locations2 }
          f item loc q ref now user).1 =
        (reserveOp w f item loc q ref now user).1 ∧
      (releaseReservationOp { w with items := items2, locations := locations2 }
          f item loc q ref now user).1 =
        (releaseReservationOp w f item loc q ref now user).1) := by
  have hq0 : ¬ q ≤ 0 := by omega
  have hqneg : ¬ (q < 0) := by omega
  refine ⟨?_, ?_, ?_⟩
  · intro hnone
    have hval : validateItemAndLocation w item loc = .error .itemNotFound := by
      simp [validateItemAndLocation, hnone]
    refine ⟨?_, ?_, ?_, ?_⟩ <;>
      simp [addOp, removeOp, adjustOp, transferOp, hq0, hqneg, hneq, hval]
  · intro hsome hlocnone
    obtain ⟨it, hit⟩ := Option.isSome_iff_exists.mp hsome
    have hval : validateItemAndLocation w item loc = .error .locationNotFound := by
      simp [validateItemAndLocation, hit, hlocnone]
    refine ⟨?_, ?_, ?_, ?_⟩ <;>
      simp [addOp, removeOp, adjustOp, transferOp, hq0, hqneg, hneq, hval]
  · intro items2 locations2
    constructor <;>
      · simp only [reserveOp, releaseReservationOp, getStock]
        repeat (first | rfl | split)

/-- Witness for the C5 amended theorem on the fixture world with empty
catalog: every validated operation reports `ErrItemNotFound` while Reserve's
result ignores the catalog. -/
theorem catalog_validation_scope_witness :
    ((0 : Int) < 5 ∧ ("L1" == "L2") = false ∧ getItem w5 "A" = none) ∧
    ((addOp w5 noFaults "A" "L1" 5 "r" 0 "u").1 = .error .itemNotFound ∧
     (removeOp w5 noFaults "A" "L1" 5 "r" 0 "u").1 = .error .itemNotFound ∧
     (adjustOp w5 noFaults "A" "L1" 5 "r" 0 "u").1 = .error .itemNotFound ∧
     (transferOp w5 noFaults "A" "L1" "L2" 5 "r" 0 "u").1 = .error .itemNotFound) :=
  ⟨⟨by decide, by decide, by decide⟩,
   (catalog_validation_scope w5 noFaults "A" "L1" "L2" 5 "r" 0 "u"
      (by decide) (by decide)).1 (by decide)⟩

/-- Counterexample to claim C6 as stated: resolving an alert that is already
inactive is not an error — the UPDATE matches on id alone, affects one row,
and succeeds again, refreshing the resolved timestamp. -/
theorem resolve_inactive_alert_counterexample :
    alertInactive.isActive = false ∧
    resolveAlertDB [alertInactive] "AL1" 7 =
      .ok [{ alertInactive with isActive := false, resolvedAt := some 7 }] :=
  ⟨rfl, by decide⟩

/-- Claim C6 (amended): ResolveAlert marks every alert carrying the id
inactive and sets its resolved timestamp, and resolving a nonexistent alert
is an error; however, resolving an already-inactive alert is not an error —
the row is matched by id regardless of its active flag and the call succeeds
again. -/
theorem resolveAlert_semantics (alerts : List StockAlert) (alertID : String)
    (now : Nat) :
    (alerts.any (fun a => a.id == alertID) = false →
      resolveAlertDB alerts alertID now = .error (.genericError "alert not found")) ∧
    (alerts.any (fun a => a.id == alertID) = true →
      resolveAlertDB alerts alertID now = .ok (alerts.map (fun a =>
        if a.id == alertID then { a with isActive := false, resolvedAt := some now }
        else a)) ∧
      ∀ b ∈ alerts.map (fun a =>
          if a.id == alertID then { a with isActive := false, resolvedAt := some now }
          else a),
        (b.id == alertID) = true → b.isActive = false ∧ b.resolvedAt = some now) := by
  constructor
  · intro hno
    simp only [resolveAlertDB, hno, Bool.false_eq_true, if_false]
  · intro hyes
    refine ⟨by simp only [resolveAlertDB, hyes, if_true], ?_⟩
    intro b hb hbid
    rw [List.mem_map] at hb
    obtain ⟨a, _, rfl⟩ := hb
    by_cases hid : (a.id == alertID) = true
    · simp [hid]
    · rw [if_neg hid] at hbid ⊢
      exact absurd hbid hid

/-- Witness for the C6 amended theorem: the already-inactive fixture alert is
matched and resolved successfully. -/
theorem resolveAlert_semantics_witness :
    ([alertInactive].any (fun a => a.id == "AL1") = true) ∧
    resolveAlertDB [alertInactive] "AL1" 7 =
      .ok ([alertInactive].map (fun a =>
        if a.id == "AL1" then { a with isActive := false, resolvedAt := some 7 }
        else a)) :=
  ⟨by decide, ((resolveAlert_semantics [alertInactive] "AL1" 7).2 (by decide)).1⟩

/-- Counterexample to claim C3 as stated: on the fixture world a successful
Transfer appends three journal entries (the nested Remove's outbound entry,
the nested Add's inbound entry, and the transfer entry itself), not exactly
one; and a successful Reserve appends none. -/
theorem journal_one_entry_counterexample :
    (transferOp w0 noFaults "A" "L1" "L2" 10 "r" 5 "u").1 = .ok () ∧
    (transferOp w0 noFaults "A" "L1" "L2" 10 "r" 5 "u").2.journal.length =
      w0.journal.length + 3 ∧
    (reserveOp w0 noFaults "A" "L1" 10 "r" 5 "u").1 = .ok () ∧
    (reserveOp w0 noFaults "A" "L1" 10 "r" 5 "u").2.journal = w0.journal :=
  ⟨by decide, by decide, by decide, by decide⟩

theorem addOp_res_journal (w : World) (f : Faults) (item loc : String)
    (q : Int) (ref : String) (now : Nat) (user : String)
    (hf : f.txFail = false) :
    ∀ res, addOp w f item loc q ref now user = res →
    (res.1 = .ok () → ∃ tx, res.2.journal = w.journal ++ [tx]) ∧
    (∀ e, res.1 = .error e → res.2.journal = w.journal) := by
  intro res hres
  simp only [addOp] at hres
  split at hres
  · subst hres
    exact ⟨fun h => by simp at h, fun e h => rfl⟩
  · split at hres
    · subst hres
      exact ⟨fun h => by simp at h, fun e h => rfl⟩
    · split at hres
      · subst hres
        refine ⟨fun _ => ?_, fun e h => by simp at h⟩
        exact ⟨_, by simp [createTransactionLogged, hf]; rfl⟩
      · split at hres
        · subst hres
          exact ⟨fun h => by simp at h, fun e h => rfl⟩
        · subst hres
          refine ⟨fun _ => ?_, fun e h => by simp at h⟩
          exact ⟨_, by simp [createTransactionLogged, hf]; rfl⟩

theorem removeOp_res_journal (w : World) (f : Faults) (item loc : String)
    (q : Int) (ref : String) (now : Nat) (user : String)
    (hf : f.txFail = false) :
    ∀ res, removeOp w f item loc q ref now user = res →
    (res.1 = .ok () → ∃ tx, res.2.journal = w.journal ++ [tx]) ∧
    (∀ e, res.1 = .error e → res.2.journal = w.journal) := by
  intro res hres
  simp only [removeOp] at hres
  split at hres
  · subst hres
    exact ⟨fun h => by simp at h, fun e h => rfl⟩
  · split at hres
    · subst hres
      exact ⟨fun h => by simp at h, fun e h => rfl⟩
    · split at hres
      · subst hres
        exact ⟨fun h => by simp at h, fun e h => rfl⟩
      · split at hres
        · subst hres
          exact ⟨fun h => by simp at h, fun e h => rfl⟩
        · split at hres
          · subst hres
            exact ⟨fun h => by simp at h, fun e h => rfl⟩
          · split at hres
            · subst hres
              exact ⟨fun h => by simp at h, fun e h => rfl⟩
            · subst hres
              refine ⟨fun _ => ?_, fun e h => by simp at h⟩
              split <;>
                exact ⟨_, by
                  simp [createTransactionLogged, hf, triggerLowStockAlert_journal]
                  rfl⟩

theorem adjustOp_res_journal (w : World) (f : Faults) (item loc : String)
    (q : Int) (ref : String) (now : Nat) (user : String)
    (hf : f.txFail = false) :
    ∀ res, adjustOp w f item loc q ref now user = res →
    (res.1 = .ok () → ∃ tx, res.2.journal = w.journal ++ [tx]) ∧
    (∀ e, res.1 = .error e → res.2.journal = w.journal) := by
  intro res hres
  simp only [adjustOp] at hres
  split at hres
  · subst hres
    exact ⟨fun h => by simp at h, fun e h => rfl⟩
  · split at hres
    · subst hres
      exact ⟨fun h => by simp at h, fun e h => rfl⟩
    · split at hres
      · subst hres
        refine ⟨fun _ => ?_, fun e h => by simp at h⟩
        exact ⟨_, by simp [createTransactionLogged, hf]; rfl⟩
      · split at hres
        · subst hres
          exact ⟨fun h => by simp at h, fun e h => rfl⟩
        · subst hres
          refine ⟨fun _ => ?_, fun e h => by simp at h⟩
          exact ⟨_, by simp [createTransactionLogged, hf]; rfl⟩

theorem reserveOp_journal (w : World) (f : Faults) (item loc : String)
    (q : Int) (ref : String) (now : Nat) (user : String) :
    (reserveOp w f item loc q ref now user).2.journal = w.journal := by
  simp only [reserveOp]
  repeat (first | rfl | split)

theorem releaseReservationOp_journal (w : World) (f : Faults)
    (item loc : String) (q : Int) (ref : String) (now : Nat) (user : String) :
    (releaseReservationOp w f item loc q ref now user).2.journal = w.journal := by
  simp only [releaseReservationOp]
  repeat (first | rfl | split)

theorem transferOp_res_journal (w : World) (f : Faults)
    (item fromL toL : String) (q : Int) (ref : String) (now : Nat)
    (user : String) (hf : f.txFail = false) :
    ∀ res, transferOp w f item fromL toL q ref now user = res →
    res.1 = .ok () →
    ∃ t1 t2 t3, res.2.journal = w.journal ++ [t1, t2, t3] := by
  intro res hres hok
  simp only [transferOp] at hres
  split at hres
  · subst hres; simp at hok
  · split at hres
    · subst hres; simp at hok
    · split at hres
      · subst hres; simp at hok
      · split at hres
        · subst hres; simp at hok
        · split at hres
          · subst hres; simp at hok
          · split at hres
            · subst hres; simp at hok
            · rename_i x1 u1 w1 hrem x2 u2 w2 hadd
              subst hres
              obtain ⟨t1, h1⟩ :=
                ((removeOp_res_journal w f item fromL q ref now user hf) _ hrem).1 rfl
              obtain ⟨t2, h2⟩ :=
                ((addOp_res_journal w1 f item toL q ref now user hf) _ hadd).1 rfl
              dsimp only at h1 h2
              exact ⟨t1, t2, _, by simp [createTransactionLogged, hf, h2, h1]; rfl⟩

/-- Claim C3 (amended): with the journal write itself succeeding, a
successful Add, Remove, or Adjust appends exactly one entry to the
transaction journal and a failed one appends none; Reserve and
ReleaseReservation never append an entry, even on success; and a successful
Transfer appends three entries (the nested Remove's outbound entry, the
nested Add's inbound entry, and its own transfer record). -/
theorem journal_discipline (w : World) (f : Faults) (item loc fromL toL : String)
    (q : Int) (ref : String) (now : Nat) (user : String)
    (hf : f.txFail = false) :
    ((addOp w f item loc q ref now user).1 = .ok () →
      ∃ tx, (addOp w f item loc q ref now user).2.journal = w.journal ++ [tx]) ∧
    (∀ e, (addOp w f item loc q ref now user).1 = .error e →
      (addOp w f item loc q ref now user).2.journal = w.journal) ∧
    ((removeOp w f item loc q ref now user).1 = .ok () →
      ∃ tx, (removeOp w f item loc q ref now user).2.journal = w.journal ++ [tx]) ∧
    (∀ e, (removeOp w f item loc q ref now user).1 = .error e →
      (removeOp w f item loc q ref now user).2.journal = w.journal) ∧
    ((adjustOp w f item loc q ref now user).1 = .ok () →
      ∃ tx, (adjustOp w f item loc q ref now user).2.journal = w.journal ++ [tx]) ∧
    (∀ e, (adjustOp w f item loc q ref now user).1 = .error e →
      (adjustOp w f item loc q ref now user).2.journal = w.journal) ∧
    (reserveOp w f item loc q ref now user).2.journal = w.journal ∧
    (releaseReservationOp w f item loc q ref now user).2.journal = w.journal ∧
    ((transferOp w f item fromL toL q ref now user).1 = .ok () →
      ∃ t1 t2 t3, (transferOp w f item fromL toL q ref now user).2.journal =
        w.journal ++ [t1, t2, t3]) :=
  ⟨(addOp_res_journal w f item loc q ref now user hf _ rfl).1,
   (addOp_res_journal w f item loc q ref now user hf _ rfl).2,
   (removeOp_res_journal w f item loc q ref now user hf _ rfl).1,
   (removeOp_res_journal w f item loc q ref now user hf _ rfl).2,
   (adjustOp_res_journal w f item loc q ref now user hf _ rfl).1,
   (adjustOp_res_journal w f item loc q ref now user hf _ rfl).2,
   reserveOp_journal w f item loc q ref now user,
   releaseReservationOp_journal w f item loc q ref now user,
   transferOp_res_journal w f item fromL toL q ref now user hf _ rfl⟩

/-- Witness for the C3 amended theorem on the fixture world: a successful Add
appends one entry and a successful Transfer appends three. -/
theorem journal_discipline_witness :
    (noFaults.txFail = false) ∧
    (∃ tx, (addOp w0 noFaults "A" "L1" 7 "r" 5 "u").2.journal = w0.journal ++ [tx]) ∧
    (∃ t1 t2 t3, (transferOp w0 noFaults "A" "L1" "L2" 10 "r" 5 "u").2.journal =
      w0.journal ++ [t1, t2, t3]) := by
  have h := journal_discipline w0 noFaults "A" "L1" "L1" "L2" 7 "r" 5 "u" rfl
  have h2 := journal_discipline w0 noFaults "A" "L1" "L1" "L2" 10 "r" 5 "u" rfl
  exact ⟨rfl, h.1 (by decide), h2.2.2.2.2.2.2.2.2 (by decide)⟩

theorem getTransactionHistory_all {journal : List Transaction} {item : String}
    {limit : Nat}
    (h : (journal.filter (fun t => t.itemID == item)).length ≤ limit) :
    getTransactionHistory journal item limit =
      List.insertionSort byCreatedDesc (journal.filter (fun t => t.itemID == item)) := by
  unfold getTransactionHistory
  apply List.take_of_length_le
  rw [(List.perm_insertionSort byCreatedDesc _).length_eq]
  exact h

/-- Under the 1000-entry history window, `GetAverageCost` is the total
inbound cost over total inbound quantity of the item's entire journal —
with no location filter. -/
theorem getAverageCost_eq {journal : List Transaction} {item : String}
    (hlen : (journal.filter (fun t => t.itemID == item)).length ≤ 1000)
    (hq : (((journal.filter (fun t => t.itemID == item)).filter
        inboundCostFilter).map (fun t => t.quantity)).sum ≠ 0) :
    getAverageCost journal item = .ok
      ((((journal.filter (fun t => t.itemID == item)).filter
          inboundCostFilter).map (fun t => t.unitCost.getD 0 * (t.quantity : ℚ))).sum /
        (((((journal.filter (fun t => t.itemID == item)).filter
          inboundCostFilter).map (fun t => t.quantity)).sum : Int) : ℚ)) := by
  have hperm : List.Perm
      ((List.insertionSort byCreatedDesc
        (journal.filter (fun t => t.itemID == item))).filter inboundCostFilter)
      ((journal.filter (fun t => t.itemID == item)).filter inboundCostFilter) :=
    (List.perm_insertionSort byCreatedDesc _).filter _
  have hcost := (hperm.map (fun t => t.unitCost.getD 0 * (t.quantity : ℚ))).sum_eq
  have hqty := (hperm.map (fun t => t.quantity)).sum_eq
  simp only [getAverageCost, getTransactionHistory_all hlen, hcost, hqty]
  rw [if_neg hq]

theorem journalCapped_history :
    getTransactionHistory journalCapped "I" 1000 = List.replicate 1000 txCheap := by
  have hfil : journalCapped.filter (fun t => t.itemID == "I") = journalCapped :=
    List.filter_eq_self.mpr (by
      intro a ha
      simp only [journalCapped, List.mem_append, List.mem_replicate,
        List.mem_singleton] at ha
      rcases ha with ⟨_, rfl⟩ | rfl <;> rfl)
  have hsorted : List.Sorted byCreatedDesc journalCapped := by
    refine List.pairwise_append.mpr ⟨?_, ?_, ?_⟩
    · exact List.pairwise_replicate.mpr (Or.inr (by simp [byCreatedDesc]))
    · simp
    · intro a ha b hb
      simp only [List.mem_replicate] at ha
      simp only [List.mem_singleton] at hb
      rw [ha.2, hb]
      simp [byCreatedDesc, txCheap, txOld]
  unfold getTransactionHistory
  rw [hfil, hsorted.insertionSort_eq, journalCapped,
    List.take_left' (List.length_replicate 1000 txCheap)]

/-- Counterexample to claim C8 as stated: with 1001 historical inbound
entries (1000 cheap new layers and one older layer at cost 3) the
implementation averages only the newest 1000 journal entries — `GetAverageCost`
reads `GetTransactionHistory(itemID, 1000)` — giving 1, while the average
over ALL historical inbound entries, which the claim specifies, is
1003/1001. -/
theorem average_ignores_old_entries_counterexample :
    getAverageCost journalCapped "I" = .ok 1 ∧
    allInboundAverageCost journalCapped "I" = 1003 / 1001 ∧
    (1 : ℚ) ≠ 1003 / 1001 := by
  have hfilrep : (List.replicate 1000 txCheap).filter inboundCostFilter =
      List.replicate 1000 txCheap :=
    List.filter_eq_self.mpr (by
      intro a ha
      rw [(List.mem_replicate.mp ha).2]
      rfl)
  refine ⟨?_, ?_, by norm_num⟩
  · unfold getAverageCost
    rw [journalCapped_history]
    simp only [hfilrep, List.map_replicate, List.sum_replicate]
    norm_num [txCheap]
  · have hfil : journalCapped.filter (fun t => t.itemID == "I") = journalCapped :=
      List.filter_eq_self.mpr (by
        intro a ha
        simp only [journalCapped, List.mem_append, List.mem_replicate,
          List.mem_singleton] at ha
        rcases ha with ⟨_, rfl⟩ | rfl <;> rfl)
    have hfil2 : journalCapped.filter inboundCostFilter = journalCapped := by
      rw [journalCapped, List.filter_append, hfilrep]
      rfl
    unfold allInboundAverageCost
    simp only [hfil, hfil2]
    simp only [journalCapped, List.map_append, List.map_replicate,
      List.sum_append, List.sum_replicate]
    norm_num [txCheap, txOld]

/-- Claim C8 (amended): for journals where the item carries at most 1000
entries — the history window `GetAverageCost` reads; older entries beyond it
are ignored — `CalculateValue` with the weighted-average method returns
(total inbound cost ÷ total inbound quantity), both totals taken over all of
the item's journal entries of inbound type with positive unit cost across
ALL locations (no location filter appears in the sums, unlike the
location-scoped FIFO/LIFO layer selection), multiplied by the on-hand
quantity at the requested location. -/
theorem calculateValue_average_cross_location (w : World) (item loc : String)
    (s : Stock) (hs : getStock w item loc = some s) (hpos : 0 < s.quantity)
    (hlen : (w.journal.filter (fun t => t.itemID == item)).length ≤ 1000)
    (hq : (((w.journal.filter (fun t => t.itemID == item)).filter
        inboundCostFilter).map (fun t => t.quantity)).sum ≠ 0) :
    calculateValue w item loc .average = .ok
      (((((w.journal.filter (fun t => t.itemID == item)).filter
          inboundCostFilter).map (fun t => t.unitCost.getD 0 * (t.quantity : ℚ))).sum /
        (((((w.journal.filter (fun t => t.itemID == item)).filter
          inboundCostFilter).map (fun t => t.quantity)).sum : Int) : ℚ)) *
        (s.quantity : ℚ)) := by
  simp only [calculateValue, hs, if_neg (not_le.mpr hpos), calculateAverage,
    getAverageCost_eq hlen hq, Except.map]

/-- Witness for the C8 theorem: layers 100@10 and 100@20 at L plus 100@40 at
M give the item-wide average (7000 ÷ 300) and valuation (7000/300) × 150 =
3500 — the layer at the other location does enter the average. -/
theorem calculateValue_average_cross_location_witness :
    (getStock w8 "I" "L" = some stockIL ∧ 0 < stockIL.quantity ∧
      (w8.journal.filter (fun t => t.itemID == "I")).length ≤ 1000 ∧
      (((w8.journal.filter (fun t => t.itemID == "I")).filter
        inboundCostFilter).map (fun t => t.quantity)).sum ≠ 0) ∧
    calculateValue w8 "I" "L" .average = .ok 3500 :=
  ⟨⟨by decide, by decide, by decide, by decide⟩,
   (calculateValue_average_cross_location w8 "I" "L" stockIL (by decide)
      (by decide) (by decide) (by decide)).trans (by
    norm_num [w8, txLayer1, txLayer2, txLayerOtherLoc, inboundCostFilter,
      hasPositiveCost, stockIL])⟩

/-- Counterexample to claim C7's universal clause as stated: with the very
layers of the claim (100\@10 then 100\@20 — costs differ) and an on-hand
quantity of 200, which spans both layers, FIFO and LIFO coincide (both
consume every layer in full, 3000), so the two methods do NOT differ
whenever layer costs differ and the on-hand quantity spans more than one
layer. -/
theorem fifo_lifo_coincide_counterexample :
    txLayer1.unitCost = some 10 ∧ txLayer2.unitCost = some 20 ∧
    txLayer1.quantity = 100 ∧ txLayer2.quantity = 100 ∧
    calculateFIFO journal2 "I" "L" 200 = 3000 ∧
    calculateLIFO journal2 "I" "L" 200 = 3000 := by
  refine ⟨rfl, rfl, rfl, rfl, ?_, ?_⟩ <;>
    norm_num [calculateFIFO, calculateLIFO, getInboundTransactions,
      getTransactionHistory, journal2, txLayer1, txLayer2, hasPositiveCost,
      byCreatedAsc, byCreatedDesc, calculateValueFromTransactions,
      List.insertionSort, List.orderedInsert]

@[simp] theorem mkLayer_itemID (item loc : String) (q : Int) (c : ℚ) (t : Nat) :
    (mkLayer item loc q c t).itemID = item := rfl

@[simp] theorem mkLayer_type (item loc : String) (q : Int) (c : ℚ) (t : Nat) :
    (mkLayer item loc q c t).type = .inbound := rfl

@[simp] theorem mkLayer_toLocation (item loc : String) (q : Int) (c : ℚ) (t : Nat) :
    (mkLayer item loc q c t).toLocation = some loc := rfl

@[simp] theorem mkLayer_unitCost (item loc : String) (q : Int) (c : ℚ) (t : Nat) :
    (mkLayer item loc q c t).unitCost = some c := rfl

@[simp] theorem mkLayer_quantity (item loc : String) (q : Int) (c : ℚ) (t : Nat) :
    (mkLayer item loc q c t).quantity = q := rfl

@[simp] theorem mkLayer_createdAt (item loc : String) (q : Int) (c : ℚ) (t : Nat) :
    (mkLayer item loc q c t).createdAt = t := rfl

/-- Claim C7 (amended): for inbound layers (q1 at cost c1, then q2 at cost
c2, distinct positive costs), valuing Q on-hand units consumes layers
oldest-first under FIFO and newest-first under LIFO, taking a partial amount
from the final layer: FIFO = c1·q1 + c2·(Q − q1) whenever q1 < Q ≤ q1 + q2,
and LIFO symmetrically; the two methods differ whenever the layer costs
differ and the on-hand quantity spans more than one layer WITHOUT consuming
every layer in full, i.e. q1 < Q < q1 + q2 (at Q = q1 + q2 they coincide).
The claim's instance 100\@10, 100\@20, Q = 150 gives FIFO 2000 and LIFO
2500. -/
theorem fifo_lifo_two_layer_divergence (item loc : String) (q1 q2 Q : Int)
    (c1 c2 : ℚ) (t1 t2 : Nat)
    (ht : t1 < t2) (hq1 : 0 < q1) (hq2 : 0 < q2)
    (hc1 : 0 < c1) (hc2 : 0 < c2) (hcne : c1 ≠ c2)
    (hQ1 : q1 < Q) (hQtot : Q < q1 + q2) :
    calculateFIFO [mkLayer item loc q1 c1 t1, mkLayer item loc q2 c2 t2]
        item loc Q = c1 * (q1 : ℚ) + c2 * ((Q - q1 : Int) : ℚ) ∧
    calculateLIFO [mkLayer item loc q1 c1 t1, mkLayer item loc q2 c2 t2]
        item loc Q =
      (if q2 < Q then c2 * (q2 : ℚ) + c1 * ((Q - q2 : Int) : ℚ)
       else c2 * (Q : ℚ)) ∧
    calculateFIFO [mkLayer item loc q1 c1 t1, mkLayer item loc q2 c2 t2]
        item loc Q ≠
      calculateLIFO [mkLayer item loc q1 c1 t1, mkLayer item loc q2 c2 t2]
        item loc Q := by
  have hdesc : ¬ byCreatedDesc (mkLayer item loc q1 c1 t1) (mkLayer item loc q2 c2 t2) := by
    simp only [byCreatedDesc, mkLayer_createdAt]; omega
  have hdesc2 : byCreatedDesc (mkLayer item loc q2 c2 t2) (mkLayer item loc q1 c1 t1) := by
    simp only [byCreatedDesc, mkLayer_createdAt]; omega
  have hasc : ¬ byCreatedAsc (mkLayer item loc q2 c2 t2) (mkLayer item loc q1 c1 t1) := by
    simp only [byCreatedAsc, mkLayer_createdAt]; omega
  have hinb : getInboundTransactions
      [mkLayer item loc q1 c1 t1, mkLayer item loc q2 c2 t2] item loc =
      [mkLayer item loc q2 c2 t2, mkLayer item loc q1 c1 t1] := by
    simp only [getInboundTransactions, getTransactionHistory]
    rw [show List.filter (fun t => t.itemID == item)
        [mkLayer item loc q1 c1 t1, mkLayer item loc q2 c2 t2] =
        [mkLayer item loc q1 c1 t1, mkLayer item loc q2 c2 t2] by simp]
    rw [show List.insertionSort byCreatedDesc
        [mkLayer item loc q1 c1 t1, mkLayer item loc q2 c2 t2] =
        [mkLayer item loc q2 c2 t2, mkLayer item loc q1 c1 t1] by
      simp [List.insertionSort, List.orderedInsert, hdesc]]
    rw [List.take_of_length_le (by simp)]
    simp [hasPositiveCost, hc1, hc2]
  have hfifo : calculateFIFO [mkLayer item loc q1 c1 t1, mkLayer item loc q2 c2 t2]
      item loc Q = c1 * (q1 : ℚ) + c2 * ((Q - q1 : Int) : ℚ) := by
    rw [calculateFIFO, hinb]
    rw [show List.insertionSort byCreatedAsc
        [mkLayer item loc q2 c2 t2, mkLayer item loc q1 c1 t1] =
        [mkLayer item loc q1 c1 t1, mkLayer item loc q2 c2 t2] by
      simp [List.insertionSort, List.orderedInsert, hasc]]
    simp only [calculateValueFromTransactions, mkLayer_unitCost, mkLayer_quantity]
    rw [if_neg (by omega : ¬ Q ≤ 0), if_neg (by omega : ¬ q1 > Q)]
    rw [if_neg (by omega : ¬ Q - q1 ≤ 0), if_pos (by omega : q2 > Q - q1)]
    ring
  have hlifo : calculateLIFO [mkLayer item loc q1 c1 t1, mkLayer item loc q2 c2 t2]
      item loc Q =
      (if q2 < Q then c2 * (q2 : ℚ) + c1 * ((Q - q2 : Int) : ℚ)
       else c2 * (Q : ℚ)) := by
    rw [calculateLIFO, hinb]
    rw [show List.insertionSort byCreatedDesc
        [mkLayer item loc q2 c2 t2, mkLayer item loc q1 c1 t1] =
        [mkLayer item loc q2 c2 t2, mkLayer item loc q1 c1 t1] by
      simp [List.insertionSort, List.orderedInsert, hdesc2]]
    by_cases hq2Q : q2 < Q
    · rw [if_pos hq2Q]
      simp only [calculateValueFromTransactions, mkLayer_unitCost, mkLayer_quantity]
      rw [if_neg (by omega : ¬ Q ≤ 0), if_neg (by omega : ¬ q2 > Q)]
      rw [if_neg (by omega : ¬ Q - q2 ≤ 0), if_pos (by omega : q1 > Q - q2)]
      ring
    · rw [if_neg hq2Q]
      simp only [calculateValueFromTransactions, mkLayer_unitCost, mkLayer_quantity]
      rw [if_neg (by omega : ¬ Q ≤ 0)]
      rw [show (if q2 > Q then Q else q2) = Q by split <;> omega]
      rw [if_pos (by omega : Q - Q ≤ 0)]
      ring
  refine ⟨hfifo, hlifo, ?_⟩
  rw [hfifo, hlifo]
  by_cases hq2Q : q2 < Q
  · rw [if_pos hq2Q]
    intro heq
    have hzero : (c1 - c2) * ((q1 : ℚ) + (q2 : ℚ) - (Q : ℚ)) = 0 := by
      push_cast at heq ⊢
      linear_combination heq
    rcases mul_eq_zero.mp hzero with h | h
    · exact hcne (sub_eq_zero.mp h)
    · have hne : (q1 : ℚ) + (q2 : ℚ) - (Q : ℚ) ≠ 0 := by
        have hne2 : ((q1 + q2 - Q : Int) : ℚ) ≠ 0 := by
          exact_mod_cast (by omega : q1 + q2 - Q ≠ 0)
        push_cast at hne2
        convert hne2 using 2
      exact hne h
  · rw [if_neg hq2Q]
    intro heq
    have hzero : (c1 - c2) * (q1 : ℚ) = 0 := by
      push_cast at heq ⊢
      linear_combination heq
    rcases mul_eq_zero.mp hzero with h | h
    · exact hcne (sub_eq_zero.mp h)
    · have hne : (q1 : ℚ) ≠ 0 := by
        exact_mod_cast (by omega : q1 ≠ 0)
      exact hne h

/-- Witness for the C7 amended theorem at the claim's own numbers: layers
100\@10 then 100\@20, on-hand 150: FIFO = 2000 and LIFO = 2500. -/
theorem fifo_lifo_two_layer_divergence_witness :
    ((1 : Nat) < 2 ∧ (0 : ℚ) < 10 ∧ (10 : ℚ) ≠ 20 ∧ (100 : Int) < 150 ∧
      (150 : Int) < 100 + 100) ∧
    calculateFIFO [mkLayer "I" "L" 100 10 1, mkLayer "I" "L" 100 20 2]
      "I" "L" 150 = 2000 ∧
    calculateLIFO [mkLayer "I" "L" 100 10 1, mkLayer "I" "L" 100 20 2]
      "I" "L" 150 = 2500 := by
  have h := fifo_lifo_two_layer_divergence "I" "L" 100 100 150 10 20 1 2
    (by norm_num) (by norm_num) (by norm_num) (by norm_num) (by norm_num)
    (by norm_num) (by norm_num) (by norm_num)
  refine ⟨⟨by norm_num, by norm_num, by norm_num, by norm_num, by norm_num⟩, ?_, ?_⟩
  · rw [h.1]; norm_num
  · rw [h.2.1]; norm_num

/-- Uniqueness of the classification under pairwise-distinct estimates: the
descending sort of a distinct-valued list is its unique strictly-descending
permutation, so `classifyABC` is invariant under permutation of its input. -/
theorem classifyABC_perm_of_nodup (l1 l2 : List (String × ℚ))
    (hperm : List.Perm l1 l2) (hnodup : (l1.map Prod.snd).Nodup) :
    classifyABC l1 = classifyABC l2 := by
  have hps1 := List.perm_insertionSort byValueDesc l1
  have hps2 := List.perm_insertionSort byValueDesc l2
  have hs12 : List.Perm (List.insertionSort byValueDesc l1)
      (List.insertionSort byValueDesc l2) :=
    hps1.trans (hperm.trans hps2.symm)
  have hsorted1 := List.sorted_insertionSort byValueDesc l1
  have hsorted2 := List.sorted_insertionSort byValueDesc l2
  have hnodup1 : ((List.insertionSort byValueDesc l1).map Prod.snd).Nodup :=
    ((hps1.map Prod.snd).nodup_iff).mpr hnodup
  have hnodup2 : ((List.insertionSort byValueDesc l2).map Prod.snd).Nodup :=
    ((hps2.map Prod.snd).nodup_iff).mpr
      (((hperm.map Prod.snd).nodup_iff).mp hnodup)
  have hstrict1 : List.Sorted byValueStrictDesc (List.insertionSort byValueDesc l1) :=
    List.Pairwise.imp (fun h => lt_of_le_of_ne h.1 (Ne.symm h.2))
      (List.Pairwise.and hsorted1 (List.pairwise_map.mp hnodup1))
  have hstrict2 : List.Sorted byValueStrictDesc (List.insertionSort byValueDesc l2) :=
    List.Pairwise.imp (fun h => lt_of_le_of_ne h.1 (Ne.symm h.2))
      (List.Pairwise.and hsorted2 (List.pairwise_map.mp hnodup2))
  have heq : List.insertionSort byValueDesc l1 = List.insertionSort byValueDesc l2 :=
    List.eq_of_perm_of_sorted hs12 hstrict1 hstrict2
  have htot : (l1.map Prod.snd).sum = (l2.map Prod.snd).sum :=
    (hperm.map Prod.snd).sum_eq
  unfold classifyABC
  rw [heq, htot]

/-- The estimate list of the cut-point fixture location, computed through
`listStockByLocation` and the per-item estimate: 8×10×1, 3×10×(1/2),
1×10×(1/2). -/
theorem w9_estimates :
    abcEstimates w9 "L" = [("P", (80 : ℚ)), ("Q", 15), ("R", 5)] := by
  have hfil : w9.stocks.filter (fun s => s.locationID == "L") =
      [stockP9, stockQ9, stockR9] := rfl
  have hPQ : byItemAsc stockP9 stockQ9 := by
    show ("P" : String) ≤ "Q"
    rw [String.le_iff_toList_le]; decide
  have hPR : byItemAsc stockP9 stockR9 := by
    show ("P" : String) ≤ "R"
    rw [String.le_iff_toList_le]; decide
  have hQR : byItemAsc stockQ9 stockR9 := by
    show ("Q" : String) ≤ "R"
    rw [String.le_iff_toList_le]; decide
  have hsorted : List.Sorted byItemAsc [stockP9, stockQ9, stockR9] := by
    refine List.sorted_cons.mpr ⟨?_, List.sorted_cons.mpr ⟨?_, List.sorted_singleton _⟩⟩
    · intro b hb
      rcases List.mem_cons.mp hb with rfl | hb2
      · exact hPQ
      · rw [List.mem_singleton.mp hb2]
        exact hPR
    · intro b hb
      rw [List.mem_singleton.mp hb]
      exact hQR
  unfold abcEstimates listStockByLocation
  rw [hfil, hsorted.insertionSort_eq]
  have hgP : getItem w9 "P" = some itemP := rfl
  have hgQ : getItem w9 "Q" = some itemQ := rfl
  have hgR : getItem w9 "R" = some itemR := rfl
  norm_num [List.filterMap, hgP, hgQ, hgR, stockP9, stockQ9, stockR9,
    itemP, itemQ, itemR]

/-- The estimate list of the tie fixture location: both items estimate to
5×10×1 = 50. -/
theorem wTie_estimates :
    abcEstimates wTie "L" = [("X", (50 : ℚ)), ("Y", 50)] := by
  have hfil : wTie.stocks.filter (fun s => s.locationID == "L") =
      [stockXT, stockYT] := rfl
  have hXY : byItemAsc stockXT stockYT := by
    show ("X" : String) ≤ "Y"
    rw [String.le_iff_toList_le]; decide
  have hsorted : List.Sorted byItemAsc [stockXT, stockYT] := by
    refine List.sorted_cons.mpr ⟨?_, List.sorted_singleton _⟩
    intro b hb
    rw [List.mem_singleton.mp hb]
    exact hXY
  unfold abcEstimates listStockByLocation
  rw [hfil, hsorted.insertionSort_eq]
  have hgX : getItem wTie "X" = some itemX := rfl
  have hgY : getItem wTie "Y" = some itemY := rfl
  norm_num [List.filterMap, hgX, hgY, stockXT, stockYT, itemX, itemY]

/-- Counterexample to claim C9 as stated: on a world whose two items at the
location carry equal estimates, `CalculateABCClassification` may return a
classification in which the tied item X is classed A and may return one in
which X is classed C — both iteration orders of the estimates map are
admissible runs of the call — so ties are not broken by estimate order
through a stable sort; the tied outcome depends on the unspecified Go map
range order feeding the non-stable `sort.Slice`. -/
theorem calculateABC_tie_order_counterexample :
    calculateABCClassification wTie "L"
      (.ok (classifyABC [("X", (50 : ℚ)), ("Y", 50)])) ∧
    calculateABCClassification wTie "L"
      (.ok (classifyABC [("Y", (50 : ℚ)), ("X", 50)])) ∧
    (classifyABC [("X", (50 : ℚ)), ("Y", 50)]).lookup "X" = some "A" ∧
    (classifyABC [("Y", (50 : ℚ)), ("X", 50)]).lookup "X" = some "C" := by
  refine ⟨⟨[("X", (50 : ℚ)), ("Y", 50)],
      by rw [wTie_estimates], rfl⟩,
    ⟨[("Y", (50 : ℚ)), ("X", 50)],
      by rw [wTie_estimates]; exact List.Perm.swap _ _ _, rfl⟩, ?_, ?_⟩
  · norm_num [classifyABC, assignABC, abcClass, byValueDesc,
      List.insertionSort, List.orderedInsert, List.lookup]
  · norm_num [classifyABC, assignABC, abcClass, byValueDesc,
      List.insertionSort, List.orderedInsert, List.lookup]
    rfl

/-- Claim C9 (amended): `CalculateABCClassification` estimates the annual
value of each of the location's stocked items as on-hand quantity × 10 ×
catalog unit cost, skipping items whose catalog lookup fails (proved as an
exact two-way characterisation of the estimate list); ranks the estimates
descending and assigns classes by cumulative share at the 80%/95% cut
points (the fixture location with estimates 80/15/5 classes P=A, Q=B, R=C);
and when the estimates are pairwise distinct every admissible map-iteration
order yields the same classification — whereas for tied estimates the class
depends on the unspecified Go map range order feeding the non-stable sort,
as the counterexample shows. -/
theorem calculateABCClassification_pipeline (w : World) (loc : String) :
    (∀ s ∈ w.stocks, s.locationID = loc →
      ∀ it, getItem w s.itemID = some it →
        (s.itemID, ((s.quantity * 10 : Int) : ℚ) * it.unitCost) ∈
          abcEstimates w loc) ∧
    (∀ p ∈ abcEstimates w loc, ∃ s, s ∈ w.stocks ∧ s.locationID = loc ∧
      ∃ it, getItem w s.itemID = some it ∧
        p = (s.itemID, ((s.quantity * 10 : Int) : ℚ) * it.unitCost)) ∧
    (((abcEstimates w loc).map Prod.snd).Nodup →
      ∀ r1 r2, calculateABCClassification w loc r1 →
        calculateABCClassification w loc r2 → r1 = r2) ∧
    abcEstimates w9 "L" = [("P", (80 : ℚ)), ("Q", 15), ("R", 5)] ∧
    calculateABCClassification w9 "L"
      (.ok [("P", "A"), ("Q", "B"), ("R", "C")]) := by
  refine ⟨?_, ?_, ?_, w9_estimates, ?_⟩
  · intro s hs hloc it hit
    unfold abcEstimates listStockByLocation
    refine List.mem_filterMap.mpr ⟨s, ?_, ?_⟩
    · rw [(List.perm_insertionSort byItemAsc _).mem_iff]
      exact List.mem_filter.mpr ⟨hs, by simp [hloc]⟩
    · rw [hit]
      rfl
  · intro p hp
    unfold abcEstimates listStockByLocation at hp
    obtain ⟨s, hsmem, hg⟩ := List.mem_filterMap.mp hp
    rw [(List.perm_insertionSort byItemAsc _).mem_iff] at hsmem
    obtain ⟨hsw, hsl⟩ := List.mem_filter.mp hsmem
    obtain ⟨it, hit, hpair⟩ := Option.map_eq_some'.mp hg
    exact ⟨s, hsw, by simpa using hsl, it, hit, hpair.symm⟩
  · intro hnd r1 r2 h1 h2
    obtain ⟨i1, hp1, rfl⟩ := h1
    obtain ⟨i2, hp2, rfl⟩ := h2
    have hnd1 : (i1.map Prod.snd).Nodup := ((hp1.map Prod.snd).nodup_iff).mpr hnd
    rw [classifyABC_perm_of_nodup i1 i2 (hp1.trans hp2.symm) hnd1]
  · refine ⟨[("P", (80 : ℚ)), ("Q", 15), ("R", 5)],
      by rw [w9_estimates], ?_⟩
    norm_num [classifyABC, assignABC, abcClass, byValueDesc,
      List.insertionSort, List.orderedInsert]

/-- Witness for the C9 amended theorem: the cut-point fixture's estimates
are pairwise distinct, so two concrete admissible iteration orders of its
estimates map produce the same classification. -/
theorem calculateABCClassification_pipeline_witness :
    ((abcEstimates w9 "L").map Prod.snd).Nodup ∧
    (Except.ok (classifyABC [("P", (80 : ℚ)), ("Q", 15), ("R", 5)]) :
        Except InvError (List (String × String))) =
      .ok (classifyABC [("Q", (15 : ℚ)), ("P", 80), ("R", 5)]) := by
  have h := calculateABCClassification_pipeline w9 "L"
  have hnd : ((abcEstimates w9 "L").map Prod.snd).Nodup := by
    rw [h.2.2.2.1]
    norm_num
  refine ⟨hnd, ?_⟩
  exact h.2.2.1 hnd _ _
    ⟨[("P", (80 : ℚ)), ("Q", 15), ("R", 5)],
      by rw [h.2.2.2.1], rfl⟩
    ⟨[("Q", (15 : ℚ)), ("P", 80), ("R", 5)],
      by rw [h.2.2.2.1]; exact List.Perm.swap _ _ _, rfl⟩

/-- Claim C4: for every Add, Remove, or Adjust, the caller-visible result and
the primary stock state are identical whether or not the secondary journal
write, alert creation, or event publish fails: in particular, when the
primary stock write succeeds the operation still returns success, and the
secondary failure is never propagated. -/
theorem secondary_failures_swallowed (w : World) (f : Faults)
    (itemID locationID : String) (q : Int) (ref : String) (now : Nat)
    (user : String) :
    ((addOp w f itemID locationID q ref now user).1 =
        (addOp w noFaults itemID locationID q ref now user).1 ∧
      (addOp w f itemID locationID q ref now user).2.stocks =
        (addOp w noFaults itemID locationID q ref now user).2.stocks) ∧
    ((removeOp w f itemID locationID q ref now user).1 =
        (removeOp w noFaults itemID locationID q ref now user).1 ∧
      (removeOp w f itemID locationID q ref now user).2.stocks =
        (removeOp w noFaults itemID locationID q ref now user).2.stocks) ∧
    ((adjustOp w f itemID locationID q ref now user).1 =
        (adjustOp w noFaults itemID locationID q ref now user).1 ∧
      (adjustOp w f itemID locationID q ref now user).2.stocks =
        (adjustOp w noFaults itemID locationID q ref now user).2.stocks) := by
  refine ⟨⟨?_, ?_⟩, ⟨?_, ?_⟩, ⟨?_, ?_⟩⟩ <;>
    simp only [addOp, removeOp, adjustOp] <;>
    repeat (first
      | rfl
      | (simp only [createTransactionLogged_stocks, triggerLowStockAlert_stocks])
      | split)

end ZaiGo
